import Mathlib

/-!
Verification development for the `angular-text-extractor` repository.

The repository extracts user-facing display text from Angular HTML templates
and TypeScript component files, generates per-session unique translation keys,
and (optionally) rewrites sources in place.

Two variants of the extractor module occur in the repository:
* `src/extractor.js` (444 lines): HTML-template extraction only.  Embedded
  below with the unqualified source names (`isDisplayText`, `isExcluded`,
  `generateKey`, ...).
* the larger variant carried in the repository (here called "P6", from
  `src/unnamed/part_006`, second document, lines 460-1404): the same pipeline
  plus TypeScript string-literal extraction (`extractFromTypeScriptFile`,
  `extractStringLiterals`, `getStringContext`, ...) and a richer
  `isDisplayText`.  Its definitions are embedded with a `P6` prefix.

JavaScript strings are modelled as `List Char`; each JavaScript regular
expression used by the source is translated to an executable Lean predicate
whose doc comment quotes the original pattern.  File-system reads are passed
in as `Except String` values (the read either yields content or an error
message); writes and console warnings are returned explicitly as lists.
-/

namespace AngularTextExtractor

/-! ### JavaScript string primitives -/

/-- JavaScript whitespace (`\s`, ASCII part): space, tab, newline, carriage
return, vertical tab, form feed. -/
def jsWs (c : Char) : Bool :=
  c = ' ' || c = '\t' || c = '\n' || c = '\r' || c = '\x0b' || c = '\x0c'

/-- Regex word character `\w` = `[A-Za-z0-9_]`. -/
def wordChar (c : Char) : Bool :=
  c.isAlphanum || c = '_'

/-- `[\w-]`. -/
def wdash (c : Char) : Bool :=
  wordChar c || c = '-'

/-- ASCII lower-case letter. -/
def lowerAZ (c : Char) : Bool :=
  'a' ≤ c && c ≤ 'z'

/-- ASCII upper-case letter. -/
def upperAZ (c : Char) : Bool :=
  'A' ≤ c && c ≤ 'Z'

/-- ASCII letter. -/
def alphaAZ (c : Char) : Bool :=
  lowerAZ c || upperAZ c

/-- ASCII digit. -/
def digitC (c : Char) : Bool :=
  '0' ≤ c && c ≤ '9'

/-- `String.prototype.trim()` on a char list. -/
def jsTrim (l : List Char) : List Char :=
  ((l.dropWhile jsWs).reverse.dropWhile jsWs).reverse

/-- `String.prototype.toLowerCase()` (ASCII). -/
def jsLower (l : List Char) : List Char :=
  l.map Char.toLower

/-- `startsL pat s`: `s` starts with the literal `pat`. -/
def startsL (pat s : List Char) : Bool :=
  pat.isPrefixOf s

/-- `endsL pat s`: `s` ends with the literal `pat`. -/
def endsL (pat s : List Char) : Bool :=
  startsL pat.reverse s.reverse

/-- `String.prototype.includes(pat)`: substring occurrence test. -/
def containsSub (pat : List Char) : List Char → Bool
  | [] => pat.isEmpty
  | c :: rest => startsL pat (c :: rest) || containsSub pat rest

/-- First index at which `pat` occurs in `s` starting at or after position
`from0`, as with JavaScript `indexOf` (`-1` becomes `none`). -/
def idxOfSubFrom (pat s : List Char) (from0 : Nat) : Option Nat :=
  go (s.drop from0) from0
where
  go : List Char → Nat → Option Nat
    | [], i => if pat.isEmpty then some i else none
    | c :: rest, i =>
      if startsL pat (c :: rest) then some i else go rest (i + 1)

/-- Last index at which the single character `c0` occurs (JS `lastIndexOf`). -/
def lastIdxOfChar (c0 : Char) (s : List Char) : Option Nat :=
  go s 0 none
where
  go : List Char → Nat → Option Nat → Option Nat
    | [], _, acc => acc
    | c :: rest, i, acc => go rest (i + 1) (if c = c0 then some i else acc)

/-- JavaScript `String.prototype.substring(a, b)`: negative arguments clamp
to 0, arguments above the length clamp to the length, and the two endpoints
are swapped when given in decreasing order.  Here the endpoints are `Int` so
that a JavaScript `-1` (e.g. from a failed `indexOf`) can flow in faithfully. -/
def jsSubstring (s : List Char) (a b : Int) : List Char :=
  let n : Int := s.length
  let a' := (max 0 (min a n)).toNat
  let b' := (max 0 (min b n)).toNat
  let lo := min a' b'
  let hi := max a' b'
  (s.take hi).drop lo

/-- Split on a separator character (JS `String.prototype.split(c)`). -/
def splitChar (c0 : Char) : List Char → List (List Char)
  | [] => [[]]
  | c :: rest =>
    let r := splitChar c0 rest
    if c = c0 then [] :: r
    else
      match r with
      | [] => [[c]]
      | h :: t => (c :: h) :: t

/-- JS `Array.prototype.slice(-n)`: the last `n` elements. -/
def lastN (n : Nat) (l : List α) : List α :=
  l.drop (l.length - n)

/-- Join a list of char lists with a separator character (JS `join`). -/
def joinWith (c0 : Char) : List (List Char) → List Char
  | [] => []
  | [x] => x
  | x :: rest => x ++ c0 :: joinWith c0 rest

/-- Helper for `replaceAllSub`: `skip` counts characters of a pattern
occurrence that remain to be consumed. -/
def replaceAllAux (pat rep : List Char) : List Char → Nat → List Char
  | [], _ => []
  | c :: rest, skip =>
    match skip with
    | n + 1 => replaceAllAux pat rep rest n
    | 0 =>
      if !pat.isEmpty && startsL pat (c :: rest) then
        rep ++ replaceAllAux pat rep rest (pat.length - 1)
      else
        c :: replaceAllAux pat rep rest 0

/-- Global literal replacement, non-overlapping and left-to-right, as with
JavaScript `String.prototype.replace(/lit/g, rep)` for a literal pattern. -/
def replaceAllSub (pat rep s : List Char) : List Char :=
  replaceAllAux pat rep s 0

/-! ### Shared classifier helpers

These functions are textually identical in both variants of the extractor
module. -/

/-- `isExcluded` (extractor.js 390-396): trimmed text is empty, shorter than
2 characters, all whitespace, or matches `/^[0-9\s\-_.,;:!?()[\]{}]+$/`. -/
def isExcluded (text : List Char) : Bool :=
  let trimmed := jsTrim text
  trimmed.length = 0 ||
  trimmed.length < 2 ||
  trimmed.all jsWs ||
  (!trimmed.isEmpty && trimmed.all fun c =>
    digitC c || jsWs c || c = '-' || c = '_' || c = '.' || c = ',' ||
    c = ';' || c = ':' || c = '!' || c = '?' || c = '(' || c = ')' ||
    c = '[' || c = ']' || c = '\x7b' || c = '\x7d')

/-- `/^[a-zA-Z_$][a-zA-Z0-9_$]*$/`: a bare JavaScript identifier. -/
def identLike (s : List Char) : Bool :=
  match s with
  | [] => false
  | c :: rest =>
    (alphaAZ c || c = '_' || c = '$') &&
    rest.all fun d => alphaAZ d || digitC d || d = '_' || d = '$'

/-- `isCodeIdentifier` (extractor.js 370-374): identifier-shaped and not one
of a fixed list of display-ish words (the latter compared case-insensitively,
`/^(error|warning|info|success|message|title|name|label|button|link|text|content)$/i`). -/
def isCodeIdentifier (text : List Char) : Bool :=
  identLike text &&
  !([ "error", "warning", "info", "success", "message", "title", "name",
      "label", "button", "link", "text", "content" ].any
      fun w => jsLower text = w.data)

/-- `/^[A-Z_][A-Z0-9_]*$/`: an ALL_CAPS constant. -/
def allCapsConst (s : List Char) : Bool :=
  match s with
  | [] => false
  | c :: rest =>
    (upperAZ c || c = '_') && rest.all fun d => upperAZ d || digitC d || d = '_'

/-- Occurrence of `\w+\.\w+` anywhere: a `.` with a word character directly on
each side. -/
def hasWordDotWord : List Char → Bool
  | [] => false
  | a :: rest =>
    (wordChar a && (match rest with | '.' :: b :: _ => wordChar b | _ => false)) ||
    hasWordDotWord rest

/-- Occurrence of `\w+\(\)` anywhere: a word character directly followed by
`()`. -/
def hasWordParens : List Char → Bool
  | [] => false
  | a :: rest => (wordChar a && startsL ['(', ')'] rest) || hasWordParens rest

/-- Occurrence of `unable to.*\w+\(\)`: the literal `unable to`, then on the
same line (JS `.` does not cross a line break) a word character followed by
`()`. -/
def hasUnableToCall : List Char → Bool
  | [] => false
  | c :: rest =>
    (startsL "unable to".data (c :: rest) &&
      sameLineWordParens ((c :: rest).drop 9)) ||
    hasUnableToCall rest
where
  /-- Scan for `\w+\(\)` without crossing a line break. -/
  sameLineWordParens : List Char → Bool
    | [] => false
    | a :: rest =>
      if a = '\n' || a = '\r' then false
      else (wordChar a && startsL ['(', ')'] rest) || sameLineWordParens rest

/-- `isUserFacingErrorMessage` (extractor.js 376-388).  Technical patterns:
`/undefined|null|NaN|TypeError|ReferenceError/`,
`/failed to|cannot|unable to.*\w+\(\)/`, `/^[A-Z_][A-Z0-9_]*$/`,
`/\w+\.\w+|\w+\(\)/`.  Accepted iff none matches, length exceeds 10 and the
text has two lowercase letters (`/[a-z].*[a-z]/`; JS `.` does not match a
newline, so the two letters must not be separated by a line break). -/
def isUserFacingErrorMessage (text : List Char) : Bool :=
  let technical :=
    containsSub "undefined".data text || containsSub "null".data text ||
    containsSub "NaN".data text || containsSub "TypeError".data text ||
    containsSub "ReferenceError".data text ||
    containsSub "failed to".data text || containsSub "cannot".data text ||
    hasUnableToCall text ||
    allCapsConst text ||
    hasWordDotWord text || hasWordParens text
  !technical && decide (text.length > 10) && twoLowerSameLine text
where
  /-- `/[a-z].*[a-z]/`: two lowercase letters with no line break between. -/
  twoLowerSameLine : List Char → Bool
    | [] => false
    | c :: rest =>
      (lowerAZ c && restLower rest) || twoLowerSameLine rest
  /-- A further lowercase letter before any line break. -/
  restLower : List Char → Bool
    | [] => false
    | c :: rest =>
      if lowerAZ c then true
      else if c = '\n' || c = '\r' then false
      else restLower rest

/-! ### The rejection-pattern battery of `isDisplayText` (extractor.js 295-350)

One executable predicate per regular expression, in source order. -/

/-- `/^@[\w-]+\/[\w-]+$/` (scoped packages). -/
def patScopedPackage (s : List Char) : Bool :=
  match s with
  | '@' :: rest =>
    let a := rest.takeWhile wdash
    match rest.dropWhile wdash with
    | '/' :: b => !a.isEmpty && !b.isEmpty && b.all wdash
    | _ => false
  | _ => false

/-- `/^[\w-]+\/[\w-]+$/` (package paths). -/
def patPackagePath (s : List Char) : Bool :=
  let a := s.takeWhile wdash
  match s.dropWhile wdash with
  | '/' :: b => !a.isEmpty && !b.isEmpty && b.all wdash
  | _ => false

/-- `/^https?:\/\//`. -/
def patHttpUrl (s : List Char) : Bool :=
  startsL "http://".data s || startsL "https://".data s

/-- `/^ftp:\/\//`. -/
def patFtpUrl (s : List Char) : Bool :=
  startsL "ftp://".data s

/-- `/^file:\/\//`. -/
def patFileUrl (s : List Char) : Bool :=
  startsL "file://".data s

/-- `/^\w+:\/\//` (any protocol). -/
def patAnyProtocol (s : List Char) : Bool :=
  let a := s.takeWhile wordChar
  !a.isEmpty && startsL "://".data (s.dropWhile wordChar)

/-- `[\/\w.-]`. -/
def pathChar (c : Char) : Bool :=
  c = '/' || wordChar c || c = '.' || c = '-'

/-- `/^\/[\/\w.-]*$/` (absolute paths). -/
def patAbsPath (s : List Char) : Bool :=
  match s with
  | '/' :: rest => rest.all pathChar
  | _ => false

/-- `/^\.{1,2}\/[\/\w.-]*$/` (relative paths). -/
def patRelPath (s : List Char) : Bool :=
  (startsL "./".data s && (s.drop 2).all pathChar) ||
  (startsL "../".data s && (s.drop 3).all pathChar)

/-- `/^[a-zA-Z]:[\\\/]/` (Windows drive paths). -/
def patWinPath (s : List Char) : Bool :=
  match s with
  | a :: ':' :: c :: _ => alphaAZ a && (c = '\\' || c = '/')
  | _ => false

/-- `/^~\//` (home directory paths). -/
def patHomePath (s : List Char) : Bool :=
  startsL "~/".data s

/-- `/\.(js|ts|html|css|scss|json|xml|yml|yaml)$/i` (file extensions). -/
def patFileExt (s : List Char) : Bool :=
  [ ".js", ".ts", ".html", ".css", ".scss", ".json", ".xml", ".yml", ".yaml"
  ].any fun e => endsL e.data (jsLower s)

/-- `/\/api\//`. -/
def patApiPath (s : List Char) : Bool :=
  containsSub "/api/".data s

/-- `/\/assets\//`. -/
def patAssetsPath (s : List Char) : Bool :=
  containsSub "/assets/".data s

/-- No line-break character (JS `.` does not match `\n` or `\r`). -/
def noNewline (s : List Char) : Bool :=
  s.all fun c => !(c = '\n' || c = '\r')

/-- `/^\.\/.*\.(js|ts|html|css)$/` (relative file paths; the `.*` segment may
not contain a line break). -/
def patRelFileExt (s : List Char) : Bool :=
  startsL "./".data s &&
  ([ ".js", ".ts", ".html", ".css" ].any fun e =>
    endsL e.data s && noNewline ((s.drop 2).take (s.length - 2 - e.length)))

/-- `/^\w+\.\w+/` (property access, anchored at the start only): the maximal
leading word-character run is nonempty and is followed by `.` and a word
character. -/
def patPropertyAccess (s : List Char) : Bool :=
  let a := s.takeWhile wordChar
  !a.isEmpty &&
  (match s.dropWhile wordChar with
   | '.' :: b :: _ => wordChar b
   | _ => false)

/-- `/^app-[\w-]+$/` (Angular component selectors). -/
def patAppSelector (s : List Char) : Bool :=
  startsL "app-".data s && !(s.drop 4).isEmpty && (s.drop 4).all wdash

/-- `/^\{\{.*\}\}$/` (a whole-string Angular interpolation; `.*` cannot cross
a line break). -/
def patWholeInterpolation (s : List Char) : Bool :=
  decide (s.length ≥ 4) &&
  startsL ['\x7b', '\x7b'] s &&
  endsL ['\x7d', '\x7d'] s &&
  noNewline ((s.drop 2).take (s.length - 4))

/-- `/^\$\{.*\}$/` (a whole-string template-literal expression). -/
def patWholeDollarBrace (s : List Char) : Bool :=
  decide (s.length ≥ 3) &&
  startsL ['$', '\x7b'] s &&
  endsL ['\x7d'] s &&
  noNewline ((s.drop 2).take (s.length - 3))

/-- `/^\d+$/` (pure numbers). -/
def patPureNumber (s : List Char) : Bool :=
  !s.isEmpty && s.all digitC

/-- `/^#[0-9a-fA-F]+$/` (hex colors). -/
def patHexColor (s : List Char) : Bool :=
  match s with
  | '#' :: rest =>
    !rest.isEmpty && rest.all fun c =>
      digitC c || ('a' ≤ c && c ≤ 'f') || ('A' ≤ c && c ≤ 'F')
  | _ => false

/-- `/^[a-zA-Z]+:[a-zA-Z0-9-]+$/` (CSS-like values). -/
def patCssValue (s : List Char) : Bool :=
  let a := s.takeWhile alphaAZ
  !a.isEmpty &&
  (match s.dropWhile alphaAZ with
   | ':' :: b => !b.isEmpty && b.all fun c => alphaAZ c || digitC c || c = '-'
   | _ => false)

/-- `/^[\w-]+\.[\w-]+$/` (file extensions or `class.method`). -/
def patDottedPair (s : List Char) : Bool :=
  let a := s.takeWhile wdash
  match s.dropWhile wdash with
  | '.' :: b => !a.isEmpty && !b.isEmpty && b.all wdash
  | _ => false

/-- `/^ng[A-Z]/` (Angular directives/components). -/
def patNgPrefixed (s : List Char) : Bool :=
  match s with
  | 'n' :: 'g' :: c :: _ => upperAZ c
  | _ => false

/-- `/Component$|Service$|Directive$|Pipe$|Guard$|Resolver$|Module$/`. -/
def patAngularSuffix (s : List Char) : Bool :=
  [ "Component", "Service", "Directive", "Pipe", "Guard", "Resolver", "Module"
  ].any fun w => endsL w.data s

/-- `/^(app|src)\//` (common Angular paths). -/
def patAppSrcPath (s : List Char) : Bool :=
  startsL "app/".data s || startsL "src/".data s

/-- `/^(utf-8|utf8|ascii|base64|json|xml|html|css|js|ts)$/i`. -/
def patEncodingToken (s : List Char) : Bool :=
  [ "utf-8", "utf8", "ascii", "base64", "json", "xml", "html", "css", "js", "ts"
  ].any fun w => jsLower s = w.data

/-- `/^(GET|POST|PUT|DELETE|PATCH|HEAD|OPTIONS)$/` (HTTP methods). -/
def patHttpMethod (s : List Char) : Bool :=
  [ "GET", "POST", "PUT", "DELETE", "PATCH", "HEAD", "OPTIONS"
  ].any fun w => s = w.data

/-- `/^(localhost|127\.0\.0\.1)/` (local addresses). -/
def patLocalhost (s : List Char) : Bool :=
  startsL "localhost".data s || startsL "127.0.0.1".data s

/-- `/^\d+\.\d+(\.\d+)?/` (version numbers, anchored at the start only): the
maximal leading digit run is nonempty and is followed by `.` and a digit. -/
def patVersionNumber (s : List Char) : Bool :=
  let a := s.takeWhile digitC
  !a.isEmpty &&
  (match s.dropWhile digitC with
   | '.' :: b :: _ => digitC b
   | _ => false)

/-- `/^[a-f0-9]{8,}$/` (hex IDs/hashes). -/
def patHexHash (s : List Char) : Bool :=
  decide (s.length ≥ 8) && s.all fun c => digitC c || ('a' ≤ c && c ≤ 'f')

/-- `/^\.[\w-]+$/` (CSS classes). -/
def patCssClass (s : List Char) : Bool :=
  match s with
  | '.' :: rest => !rest.isEmpty && rest.all wdash
  | _ => false

/-- `/^#[\w-]+$/` (IDs). -/
def patCssId (s : List Char) : Bool :=
  match s with
  | '#' :: rest => !rest.isEmpty && rest.all wdash
  | _ => false

/-- `codePatterns.some(pattern => pattern.test(trimmed))`
(extractor.js 295-353), in source order; the final ALL_CAPS pattern repeats
the earlier one. -/
def codePatternsAny (s : List Char) : Bool :=
  patScopedPackage s || patPackagePath s ||
  patHttpUrl s || patFtpUrl s || patFileUrl s || patAnyProtocol s ||
  patAbsPath s || patRelPath s || patWinPath s || patHomePath s ||
  patFileExt s || patApiPath s || patAssetsPath s || patRelFileExt s ||
  identLike s || allCapsConst s || patPropertyAccess s || patAppSelector s ||
  patWholeInterpolation s || patWholeDollarBrace s ||
  patPureNumber s || patHexColor s || patCssValue s || patDottedPair s ||
  patNgPrefixed s || patAngularSuffix s || patAppSrcPath s ||
  patEncodingToken s || patHttpMethod s || patLocalhost s ||
  patVersionNumber s || patHexHash s ||
  patCssClass s || patCssId s || allCapsConst s

/-! ### The early screens of `isDisplayText` (both variants) -/

/-- `/^[a-zA-Z0-9_.]+$/.test(trimmed) && trimmed.includes('.')`
(extractor.js 258): the trimmed text looks like an already-applied
translation key. -/
def translationKeyLike (s : List Char) : Bool :=
  (!s.isEmpty && s.all fun c => alphaAZ c || digitC c || c = '_' || c = '.') &&
  containsSub ['.'] s

/-- `/assets\/i18n\/.*\.json/` (extractor.js 264): `assets/i18n/` followed on
the same line by `.json`. -/
def assetsI18nJson : List Char → Bool
  | [] => false
  | c :: rest =>
    (startsL "assets/i18n/".data (c :: rest) &&
      sameLineDotJson ((c :: rest).drop 12)) ||
    assetsI18nJson rest
where
  /-- `.json` occurring before any line break. -/
  sameLineDotJson : List Char → Bool
    | [] => false
    | c :: rest =>
      if c = '\n' || c = '\r' then false
      else startsL ".json".data (c :: rest) || sameLineDotJson rest

/-- `trimmed.includes('${') && trimmed.includes('}')` (extractor.js 269). -/
def hasDollarBraceParts (s : List Char) : Bool :=
  containsSub ['$', '\x7b'] s && containsSub ['\x7d'] s

/-! ### `isDisplayText` (extractor.js 254-368) -/

/-- The classification context consulted by extractor.js's `isDisplayText`
(only these six flags are read by that variant). -/
structure JsContext where
  isImport : Bool := false
  isRequire : Bool := false
  isDecorator : Bool := false
  isComponentDecorator : Bool := false
  isConsole : Bool := false
  isThrow : Bool := false
deriving Repr, DecidableEq

/-- The tail of `isDisplayText` after the context block (extractor.js
294-367): the pattern battery, the short-string check, and the final
phrase-or-meaningful-word rule. -/
def displayTextTail (trimmed : List Char) : Bool :=
  if codePatternsAny trimmed then false
  else if trimmed.length < 3 then false
  else if !containsSub [' '] trimmed && trimmed.length < 5 &&
          isCodeIdentifier trimmed then false
  else true

/-- `isDisplayText(text, context = null)` (extractor.js 254-368). -/
def isDisplayText (text : List Char) (context : Option JsContext) : Bool :=
  let trimmed := jsTrim text
  if translationKeyLike trimmed then false
  else if patWholeDollarBrace trimmed || assetsI18nJson trimmed then false
  else if hasDollarBraceParts trimmed then false
  else
    match context with
    | some ctx =>
      if ctx.isImport || ctx.isRequire then false
      else if ctx.isDecorator || ctx.isComponentDecorator then false
      else if ctx.isConsole then false
      else if ctx.isThrow then isUserFacingErrorMessage trimmed
      else displayTextTail trimmed
    | none => displayTextTail trimmed

/-! ### Decimal rendering of the key counter

JavaScript renders `${this.keyCounter++}` in decimal.  The renderer is
written with structural recursion (fuel-based) so that concrete runs reduce
in the kernel. -/

/-- The decimal digit character for `d < 10` (other inputs never occur). -/
def digitChar10 (d : Nat) : Char :=
  match d with
  | 0 => '0' | 1 => '1' | 2 => '2' | 3 => '3' | 4 => '4'
  | 5 => '5' | 6 => '6' | 7 => '7' | 8 => '8' | 9 => '9'
  | _ => '*'

/-- Big-endian decimal digits of a positive number, with fuel. -/
def natToCharsCore : Nat → Nat → List Char
  | 0, _ => []
  | _ + 1, 0 => []
  | fuel + 1, n + 1 =>
    natToCharsCore fuel ((n + 1) / 10) ++ [digitChar10 ((n + 1) % 10)]

/-- Decimal rendering of a natural number. -/
def natToChars (n : Nat) : List Char :=
  if n = 0 then ['0'] else natToCharsCore n n

/-- Decimal parsing, used only to prove `natToChars` injective. -/
def charsToNat (cs : List Char) : Nat :=
  cs.foldl (fun acc c => acc * 10 + (c.toNat - 48)) 0

/-! ### `extractComponentName` (extractor.js 14-49) and key generation -/

/-- The component-name suffixes stripped by
`/\.(component|service|directive|pipe|guard|resolver|module|spec|test)$/i`. -/
def componentSuffixes : List String :=
  [ "component", "service", "directive", "pipe", "guard", "resolver",
    "module", "spec", "test" ]

/-- Apply the suffix-stripping regex (case-insensitive, anchored at the end;
no two alternatives can match simultaneously). -/
def stripComponentSuffix (name : List Char) : List Char :=
  match componentSuffixes.find? (fun kw => endsL ('.' :: kw.data) (jsLower name)) with
  | some kw => name.take (name.length - (kw.length + 1))
  | none => name

/-- Apply `/^(app-|ng-)/i`. -/
def stripAppNg (name : List Char) : List Char :=
  if startsL "app-".data (jsLower name) then name.drop 4
  else if startsL "ng-".data (jsLower name) then name.drop 3
  else name

/-- `word.charAt(0).toUpperCase() + word.slice(1)`. -/
def capFirst : List Char → List Char
  | [] => []
  | c :: rest => Char.toUpper c :: rest

/-- Kebab-case to camelCase: split on `-`, capitalize all words but the
first, join. -/
def kebabToCamel (name : List Char) : List Char :=
  match splitChar '-' name with
  | [] => []
  | w :: ws => w ++ (ws.map capFirst).flatten

/-- The first letter of each `-`-separated segment, lowercased
(`componentName.split('-').map(word => word.charAt(0)).join('').toLowerCase()`). -/
def abbrevOf (name : List Char) : List Char :=
  jsLower ((splitChar '-' name).map (fun w => w.take 1)).flatten

/-- `path.extname`: the extension (with dot) of the final path segment; a
leading dot alone does not start an extension. -/
def jsExtname (p : List Char) : List Char :=
  let base := (splitChar '/' p).getLastD []
  match lastIdxOfChar '.' base with
  | some i => if i = 0 then [] else base.drop i
  | none => []

/-- `path.basename(p, ext)`: the final path segment, with `ext` removed when
it is a proper suffix. -/
def jsBasename (p ext : List Char) : List Char :=
  let base := (splitChar '/' p).getLastD []
  if !ext.isEmpty && endsL ext base && base ≠ ext then
    base.take (base.length - ext.length)
  else base

/-- `extractComponentName(filePath)` (extractor.js 14-49): file name without
extension, structural suffix and `app-`/`ng-` prefix stripped, kebab-case
converted to camelCase; names longer than 15 characters are abbreviated to
segment initials (falling back to a 10-character truncation when the
abbreviation is shorter than 2); an empty result yields `comp`. -/
def extractComponentName (filePath : List Char) : List Char :=
  let fileName := jsBasename filePath (jsExtname filePath)
  let componentName := stripAppNg (stripComponentSuffix fileName)
  let camel := kebabToCamel componentName
  if camel.length > 15 then
    let abbreviated := abbrevOf componentName
    if abbreviated.length ≥ 2 then abbreviated else camel.take 10
  else
    if camel.isEmpty then "comp".data else camel

/-- `cleanText` inside `generateKey` (extractor.js 56-59): trim, lowercase,
drop characters outside `[a-zA-Z0-9\s]`, collapse whitespace runs to single
underscores (`collapseWsAux` tracks whether the previous kept character
closed a whitespace run), truncate to 25 characters. -/
def collapseWsAux : Bool → List Char → List Char
  | _, [] => []
  | prevWs, c :: rest =>
    if jsWs c then
      (if prevWs then [] else ['_']) ++ collapseWsAux true rest
    else c :: collapseWsAux false rest

/-- The slug part of a generated key. -/
def cleanTextOf (text : List Char) : List Char :=
  (collapseWsAux false
    ((jsLower (jsTrim text)).filter fun c => c.isAlphanum || jsWs c)).take 25

/-- The string assembled by `generateKey` (extractor.js 65):
`` `${keyPrefix}.${contextPart}${cleanText}_${counter}` `` where
`contextPart` is `componentContext + "."` when the component context is a
truthy (nonempty) string. -/
def generateKeyChars (keyPfx : List Char) (componentContext : Option (List Char))
    (text : List Char) (counter : Nat) : List Char :=
  let contextPart := match componentContext with
    | some c => if c.isEmpty then [] else c ++ ['.']
    | none => []
  keyPfx ++ '.' :: (contextPart ++ cleanTextOf text ++ '_' :: natToChars counter)

/-! ### Session state -/

/-- The recognized configuration options (`keyPrefix` is named `keyPfx`
here). -/
structure Options where
  keyPfx : List Char
  locale : List Char := []
  replace : Bool := false
  excludeTs : Bool := false

/-- The mutable extractor state: the insertion-ordered `extractedTexts` map,
the monotonically increasing `keyCounter` (initially 1), and the per-file
`currentComponentContext`. -/
structure SessionState where
  extractedTexts : List (List Char × List Char) := []
  keyCounter : Nat := 1
  currentComponentContext : Option (List Char) := none

/-- JavaScript `Map.prototype.set`: update in place when the key is present
(keeping its position), append otherwise. -/
def mapSet (m : List (List Char × List Char)) (k v : List Char) :
    List (List Char × List Char) :=
  if m.any (fun p => p.1 = k) then
    m.map fun p => if p.1 = k then (k, v) else p
  else m ++ [(k, v)]

/-- `generateKey(text, filePath = null)` (extractor.js 55-66): build the key
from the slug and the current counter, then post-increment the counter. -/
def generateKey (opts : Options) (st : SessionState) (text : List Char)
    (filePath : Option (List Char) := none) : List Char × SessionState :=
  let componentContext := match filePath with
    | some fp => some (extractComponentName fp)
    | none => st.currentComponentContext
  (generateKeyChars opts.keyPfx componentContext text st.keyCounter,
   { st with keyCounter := st.keyCounter + 1 })

/-- `setComponentContext(filePath)` (extractor.js 51-53). -/
def setComponentContext (st : SessionState) (filePath : List Char) :
    SessionState :=
  { st with currentComponentContext := some (extractComponentName filePath) }

/-! ### Key uniqueness machinery

A generated key always ends in `_` followed by the decimal rendering of the
counter value used for it, and decimal digit characters are never `_`; so
the segment after the last `_` recovers the counter, and keys generated at
distinct counter values are distinct. -/

/-- The segment of a key after its last underscore. -/
def afterUnderscore (l : List Char) : List Char :=
  (l.reverse.takeWhile fun c => c ≠ '_').reverse

/-- The counter value a generated key embeds. -/
def counterOfKey (k : List Char) : Nat :=
  charsToNat (afterUnderscore k)

/-! ### The markup node tree

The source parses HTML with cheerio (an external collaborator).  The parsed
document is modelled as a tree of element and text nodes and is handed to
the extraction functions directly; file reads yield either a tree or an
error message.  `HForest` is a specialised list so that all tree recursion
is structural (and therefore reduces in the kernel on concrete runs). -/

mutual

inductive HNode where
  | elem (tag : List Char) (attrs : List (List Char × List Char))
      (children : HForest)
  | text (s : List Char)

inductive HForest where
  | nil
  | cons (head : HNode) (tail : HForest)

end

mutual

/-- `$el.text()` of a single node: concatenated descendant text. -/
def textOfNode : HNode → List Char
  | .text s => s
  | .elem _ _ cs => textOfForest cs

/-- `$(...).text()` of a forest. -/
def textOfForest : HForest → List Char
  | .nil => []
  | .cons h t => textOfNode h ++ textOfForest t

end

/-- Void elements serialized without a closing tag. -/
def voidTags : List String :=
  [ "area", "base", "br", "col", "embed", "hr", "img", "input", "link",
    "meta", "param", "source", "track", "wbr" ]

/-- One serialized attribute: ` name="value"`. -/
def serializeAttr (a : List Char × List Char) : List Char :=
  ' ' :: a.1 ++ '=' :: '"' :: a.2 ++ ['"']

mutual

/-- Serialization of one node (models cheerio's `html()` rendering of the
fragments exercised here). -/
def serializeNode : HNode → List Char
  | .text s => s
  | .elem tag attrs cs =>
    let open0 := '<' :: tag ++ (attrs.map serializeAttr).flatten ++ ['>']
    if voidTags.any (fun v => v.data = tag) then open0
    else open0 ++ serializeForest cs ++ ('<' :: '/' :: tag ++ ['>'])

/-- Serialization of a forest (`$el.html()` for the children of an
element). -/
def serializeForest : HForest → List Char
  | .nil => []
  | .cons h t => serializeNode h ++ serializeForest t

end

/-- Information about one element occurrence: a stable pre-order identifier
(the JavaScript code relies on DOM node identity), the tag, the attribute
list, the children, and the identifiers of all descendant elements
(`$el.find('*')`). -/
structure ElemInfo where
  eid : Nat
  tag : List Char
  attrs : List (List Char × List Char)
  children : HForest
  descIds : List Nat

mutual

/-- Enumerate the elements of a node in document (pre-)order, threading the
identifier counter. -/
def enumNode : HNode → Nat → (List ElemInfo × Nat)
  | .text _, n => ([], n)
  | .elem t a cs, n =>
    let sub := enumForest cs (n + 1)
    ({ eid := n, tag := t, attrs := a, children := cs,
       descIds := sub.1.map (·.eid) } :: sub.1, sub.2)

/-- Enumerate the elements of a forest in document order. -/
def enumForest : HForest → Nat → (List ElemInfo × Nat)
  | .nil, n => ([], n)
  | .cons h t, n =>
    let x := enumNode h n
    let y := enumForest t x.2
    (x.1 ++ y.1, y.2)

end

/-- All elements of a document, in document order (`$('*')`). -/
def docElems (doc : HForest) : List ElemInfo :=
  (enumForest doc 0).1

/-- `contentElements` (extractor.js 86): tag names processed by the content
pass, in order of specificity. -/
def contentElements : List String :=
  [ "button", "a", "label", "h1", "h2", "h3", "h4", "h5", "h6", "p", "li",
    "td", "th", "span", "strong", "em", "b", "i" ]

/-- `$el.find('p, li, h1, h2, h3, h4, h5, h6, button, label, a').length > 0`
(extractor.js 101): the element has a content-bearing descendant. -/
def hasContentChildrenE (elems : List ElemInfo) (e : ElemInfo) : Bool :=
  elems.any fun d =>
    e.descIds.contains d.eid &&
    [ "p", "li", "h1", "h2", "h3", "h4", "h5", "h6", "button", "label", "a"
    ].any (fun t => t.data = d.tag)

/-- The `{{ '` marker of already-rewritten content. -/
def openMarker : List Char :=
  '\x7b' :: '\x7b' :: ' ' :: [Char.ofNat 39]

/-- The `' | translate }}` marker of already-rewritten content. -/
def closeMarker : List Char :=
  Char.ofNat 39 :: " | translate \x7d\x7d".data

/-- The rewrite placeholder `{{ '<key>' | translate }}`. -/
def placeholderFor (key : List Char) : List Char :=
  openMarker ++ key ++ closeMarker

/-- `hasAngularDirectives` (extractor.js 124-130): some attribute name starts
with `*ng`, `[` or `(`, contains `{{`, or matches
`/^(ngIf|ngFor|ngClass|ngStyle|routerLink)/`. -/
def hasAngularDirectives (attrs : List (List Char × List Char)) : Bool :=
  attrs.any fun a =>
    startsL "*ng".data a.1 || startsL ['['] a.1 || startsL ['('] a.1 ||
    containsSub ['\x7b', '\x7b'] a.1 ||
    ([ "ngIf", "ngFor", "ngClass", "ngStyle", "routerLink" ].any fun p =>
      startsL p.data a.1)

/-- Strip HTML tags: `htmlContent.replace(/<[^>]*>/g, '')`
(extractor.js 241). -/
def stripTags : List Char → Bool → List Char
  | [], _ => []
  | c :: rest, inTag =>
    if inTag then
      if c = '>' then stripTags rest false else stripTags rest true
    else
      if c = '<' && containsSub ['>'] rest then stripTags rest true
      else c :: stripTags rest false

/-- `containsTranslatableText(htmlContent)` (extractor.js 239-249). -/
def containsTranslatableText (htmlContent : List Char) : Bool :=
  let textOnly := jsTrim (stripTags htmlContent false)
  if containsSub openMarker textOnly && containsSub closeMarker textOnly then
    false
  else
    decide (textOnly.length > 0) && !isExcluded textOnly &&
    isDisplayText textOnly none

/-! ### The HTML content pass (extractor.js 90-175, part_006 548-614) -/

/-- State threaded through one template's traversal: session, the
`processedElements` set (by element identifier), and the deferred
`modifications` (element identifier, key, `replaceEntireContent`). -/
structure HtmlPass where
  sess : SessionState
  processed : List Nat
  mods : List (Nat × List Char × Bool)

/-- One `$(tagName).each` step of extractor.js's content pass
(extractor.js 91-174). -/
def contentStepJs (opts : Options) (elems : List ElemInfo)
    (tagName : List Char) (ps : HtmlPass) (e : ElemInfo) : HtmlPass :=
  if ps.processed.contains e.eid then ps
  else if (tagName = "div".data || tagName = "span".data) &&
          hasContentChildrenE elems e then ps
  else
    let fullText := jsTrim (textOfForest e.children)
    if fullText.isEmpty || isExcluded fullText then ps
    else if containsSub openMarker fullText &&
            containsSub closeMarker fullText then ps
    else if containsSub ['\x7b', '\x7b'] fullText &&
            containsSub ['\x7d', '\x7d'] fullText then ps
    else if hasAngularDirectives e.attrs then ps
    else
      let hasChildElements := !e.descIds.isEmpty
      let htmlContent := serializeForest e.children
      if hasChildElements && containsTranslatableText htmlContent then
        let r := generateKey opts ps.sess fullText none
        { sess :=
            { r.2 with extractedTexts := mapSet r.2.extractedTexts r.1 htmlContent },
          processed := ps.processed ++ e.eid :: e.descIds,
          mods := ps.mods ++ if opts.replace then [(e.eid, r.1, true)] else [] }
      else if !hasChildElements then
        if !isExcluded fullText then
          let r := generateKey opts ps.sess fullText none
          { sess :=
              { r.2 with extractedTexts := mapSet r.2.extractedTexts r.1 fullText },
            processed := ps.processed ++ [e.eid],
            mods := ps.mods ++ if opts.replace then [(e.eid, r.1, false)] else [] }
        else { ps with processed := ps.processed ++ [e.eid] }
      else ps

/-- One step of the part_006 content pass (part_006 549-613): as
`contentStepJs` but without the bare-interpolation skip and without the
Angular-directive skip (that variant carries neither check). -/
def contentStepP6 (opts : Options) (elems : List ElemInfo)
    (tagName : List Char) (ps : HtmlPass) (e : ElemInfo) : HtmlPass :=
  if ps.processed.contains e.eid then ps
  else if (tagName = "div".data || tagName = "span".data) &&
          hasContentChildrenE elems e then ps
  else
    let fullText := jsTrim (textOfForest e.children)
    if fullText.isEmpty || isExcluded fullText then ps
    else if containsSub openMarker fullText &&
            containsSub closeMarker fullText then ps
    else
      let hasChildElements := !e.descIds.isEmpty
      let htmlContent := serializeForest e.children
      if hasChildElements && containsTranslatableText htmlContent then
        let r := generateKey opts ps.sess fullText none
        { sess :=
            { r.2 with extractedTexts := mapSet r.2.extractedTexts r.1 htmlContent },
          processed := ps.processed ++ e.eid :: e.descIds,
          mods := ps.mods ++ if opts.replace then [(e.eid, r.1, true)] else [] }
      else if !hasChildElements then
        if !isExcluded fullText then
          let r := generateKey opts ps.sess fullText none
          { sess :=
              { r.2 with extractedTexts := mapSet r.2.extractedTexts r.1 fullText },
            processed := ps.processed ++ [e.eid],
            mods := ps.mods ++ if opts.replace then [(e.eid, r.1, false)] else [] }
        else { ps with processed := ps.processed ++ [e.eid] }
      else ps

/-- `contentElements.forEach(tagName => $(tagName).each(...))`: elements are
visited grouped by tag name (specificity order), in document order within a
group. -/
def contentPass (step : List Char → HtmlPass → ElemInfo → HtmlPass)
    (elems : List ElemInfo) (ps0 : HtmlPass) : HtmlPass :=
  contentElements.foldl
    (fun ps tagName =>
      (elems.filter fun e => e.tag = tagName.data).foldl (step tagName.data) ps)
    ps0

/-! ### The attribute pass (extractor.js 178-199, part_006 617-633) -/

/-- The fixed attribute list `['title', 'alt', 'placeholder', 'aria-label']`. -/
def attrNames : List String :=
  [ "title", "alt", "placeholder", "aria-label" ]

/-- Whether the attribute-pass entry condition of extractor.js 184 holds:
`attrValue && attrValue.trim() && !this.isExcluded(attrValue)`. -/
def attrValueEligible (v : List Char) : Bool :=
  !v.isEmpty && !(jsTrim v).isEmpty && !isExcluded v

/-- Whether extractor.js 186-189 skips the attribute: the value contains
`{{`, `}}`, `[` or `(`. -/
def attrValueHasBindingMarks (v : List Char) : Bool :=
  containsSub ['\x7b', '\x7b'] v || containsSub ['\x7d', '\x7d'] v ||
  containsSub ['['] v || containsSub ['('] v

/-- Process one (element, attribute-name) pair of extractor.js's attribute
pass (extractor.js 182-198), accumulating the session state and the deferred
`$el.attr(attr, placeholder)` updates (element identifier, attribute name,
new value; recorded only under `replace`). -/
def attrStepJs (opts : Options) (e : ElemInfo)
    (acc : SessionState × List (Nat × List Char × List Char))
    (an : List Char) : SessionState × List (Nat × List Char × List Char) :=
  match e.attrs.find? (fun p => p.1 = an) with
  | none => acc
  | some p =>
    if attrValueEligible p.2 then
      if attrValueHasBindingMarks p.2 then acc
      else
        let r := generateKey opts acc.1 p.2 none
        ({ r.2 with extractedTexts := mapSet r.2.extractedTexts r.1 p.2 },
         acc.2 ++ if opts.replace then [(e.eid, an, placeholderFor r.1)] else [])
    else acc

/-- The part_006 attribute step (part_006 622-632): no binding-marks skip. -/
def attrStepP6 (opts : Options) (e : ElemInfo)
    (acc : SessionState × List (Nat × List Char × List Char))
    (an : List Char) : SessionState × List (Nat × List Char × List Char) :=
  match e.attrs.find? (fun p => p.1 = an) with
  | none => acc
  | some p =>
    if attrValueEligible p.2 then
      let r := generateKey opts acc.1 p.2 none
      ({ r.2 with extractedTexts := mapSet r.2.extractedTexts r.1 p.2 },
       acc.2 ++ if opts.replace then [(e.eid, an, placeholderFor r.1)] else [])
    else acc

/-- `$('*').each` over all elements, visiting the four attributes of each. -/
def attrPass
    (step : ElemInfo → SessionState × List (Nat × List Char × List Char) →
      List Char → SessionState × List (Nat × List Char × List Char))
    (elems : List ElemInfo) (start : SessionState) :
    SessionState × List (Nat × List Char × List Char) :=
  elems.foldl
    (fun acc e => attrNames.foldl (fun a an => step e a an.data) acc)
    (start, [])

/-! ### Applying the rewrite to the tree -/

mutual

/-- Apply the deferred modifications (`mod.element.html(...)` /
`mod.element.text(...)`, extractor.js 203-211) and attribute updates
(`$el.attr(attr, ...)`, extractor.js 195) to a node; the identifier counter
retraces `enumNode`'s numbering.  Both `.html(s)` and `.text(s)` leave a
single text child (the placeholder contains no characters that HTML-escape
differently). -/
def applyRewriteNode (mods : List (Nat × List Char × Bool))
    (attrCh : List (Nat × List Char × List Char)) :
    HNode → Nat → (HNode × Nat)
  | .text s, n => (.text s, n)
  | .elem t a cs, n =>
    let a' := a.map fun p =>
      match (attrCh.filter fun c => c.1 = n && c.2.1 = p.1).getLast? with
      | some c => (p.1, c.2.2)
      | none => p
    let sub := applyRewriteForest mods attrCh cs (n + 1)
    match mods.find? (fun m => m.1 = n) with
    | some m =>
      (.elem t a' (HForest.cons (.text (placeholderFor m.2.1)) .nil), sub.2)
    | none => (.elem t a' sub.1, sub.2)

/-- Forest version of `applyRewriteNode`. -/
def applyRewriteForest (mods : List (Nat × List Char × Bool))
    (attrCh : List (Nat × List Char × List Char)) :
    HForest → Nat → (HForest × Nat)
  | .nil, n => (.nil, n)
  | .cons h t, n =>
    let x := applyRewriteNode mods attrCh h n
    let y := applyRewriteForest mods attrCh t x.2
    (.cons x.1 y.1, y.2)

end

/-- The Angular-directive case restorations of extractor.js 222-229, applied
in source order. -/
def ngCaseFix (s : List Char) : List Char :=
  replaceAllSub "[routerlink]=".data "[routerLink]=".data
    (replaceAllSub "routerlink=".data "routerLink=".data
      (replaceAllSub "[ngstyle]=".data "[ngStyle]=".data
        (replaceAllSub "[ngclass]=".data "[ngClass]=".data
          (replaceAllSub "*ngswitch=".data "*ngSwitch=".data
            (replaceAllSub "*ngfor=".data "*ngFor=".data
              (replaceAllSub "*ngif=".data "*ngIf=".data s))))))

/-! ### `extractFromHtmlTemplate` -/

/-- The outcome of processing one file: the session state, the file writes
(path, content) and the warnings (message head, underlying message). -/
structure FileResult where
  st : SessionState
  writes : List (List Char × List Char)
  warns : List (List Char × List Char)

/-- `console.warn` head for a failed HTML template (extractor.js 235). -/
def htmlWarnHead (filePath : List Char) : List Char :=
  "Warning: Could not process HTML template ".data ++ filePath ++ [':']

/-- `console.warn` head for a failed TypeScript file (part_006 727). -/
def tsWarnHead (filePath : List Char) : List Char :=
  "Warning: Could not process TypeScript file ".data ++ filePath ++ [':']

/-- `extractFromHtmlTemplate(filePath)` (extractor.js 68-237).  The
component context is set first; a failing read is caught and converted into
a warning naming the file and the error message (the `try`/`catch` of
extractor.js 69/234-236), leaving the accumulated extraction state intact.
On success the content pass, then the attribute pass run; under `replace`
the rewritten tree is serialized and written back unconditionally
(extractor.js 202-231; the cheerio `<html><head></head><body>` wrapper added
at load and removed at 217-219 cancels out and is not modelled). -/
def extractFromHtmlTemplate (opts : Options) (filePath : List Char)
    (read : Except (List Char) HForest) (st : SessionState) : FileResult :=
  let st1 := setComponentContext st filePath
  match read with
  | .error msg => ⟨st1, [], [(htmlWarnHead filePath, msg)]⟩
  | .ok doc =>
    let elems := docElems doc
    let ps := contentPass (contentStepJs opts elems) elems ⟨st1, [], []⟩
    let ar := attrPass (attrStepJs opts) elems ps.sess
    if opts.replace then
      let doc' := (applyRewriteForest ps.mods ar.2 doc 0).1
      ⟨ar.1, [(filePath, ngCaseFix (serializeForest doc'))], []⟩
    else ⟨ar.1, [], []⟩

/-- The part_006 `extractFromHtmlTemplate` (part_006 527-661): as the
extractor.js one, but with the part_006 content and attribute steps and
without the directive-case restorations (that variant has none); the write
under `replace` is likewise unconditional (part_006 636-656). -/
def extractFromHtmlTemplateP6 (opts : Options) (filePath : List Char)
    (read : Except (List Char) HForest) (st : SessionState) : FileResult :=
  let st1 := setComponentContext st filePath
  match read with
  | .error msg => ⟨st1, [], [(htmlWarnHead filePath, msg)]⟩
  | .ok doc =>
    let elems := docElems doc
    let ps := contentPass (contentStepP6 opts elems) elems ⟨st1, [], []⟩
    let ar := attrPass (attrStepP6 opts) elems ps.sess
    if opts.replace then
      let doc' := (applyRewriteForest ps.mods ar.2 doc 0).1
      ⟨ar.1, [(filePath, serializeForest doc')], []⟩
    else ⟨ar.1, [], []⟩

/-- `extractFromDirectory(dirPath)` (extractor.js 402-412): the externally
discovered HTML files (path with parsed-or-failed content) are processed in
order, one at a time, threading the session state. -/
def extractFromDirectory (opts : Options) :
    List (List Char × Except (List Char) HForest) → SessionState → FileResult
  | [], st => ⟨st, [], []⟩
  | f :: rest, st =>
    let r := extractFromHtmlTemplate opts f.1 f.2 st
    let d := extractFromDirectory opts rest r.st
    ⟨d.st, r.writes ++ d.writes, r.warns ++ d.warns⟩

/-! ### TypeScript string-literal context (part_006 843-990)

The surrounding-code regular expressions are all either anchored at the end
of the 200-character `beforeContext` window or scanned globally; each is
implemented as a deterministic forward or reverse parse. -/

/-- The single-quote character. -/
def quoteSingle : Char := Char.ofNat 39

/-- The double-quote character. -/
def quoteDouble : Char := Char.ofNat 34

/-- The backtick character. -/
def quoteBack : Char := Char.ofNat 96

/-- `/require\s*\(\s*$/`. -/
def endsWithRequireParen (bc : List Char) : Bool :=
  match bc.reverse.dropWhile jsWs with
  | '(' :: r2 => startsL "require".data.reverse (r2.dropWhile jsWs)
  | _ => false

/-- `/@\w+\s*\(\s*$/`. -/
def endsWithDecorator1 (bc : List Char) : Bool :=
  match bc.reverse.dropWhile jsWs with
  | '(' :: r2 =>
    let r3 := r2.dropWhile jsWs
    !(r3.takeWhile wordChar).isEmpty &&
    (match r3.dropWhile wordChar with | '@' :: _ => true | _ => false)
  | _ => false

/-- `[\w\s:,'"]`. -/
def decoTailChar (c : Char) : Bool :=
  wordChar c || jsWs c || c = ':' || c = ',' || c = quoteSingle || c = quoteDouble

/-- `/@\w+\s*\(\s*{\s*[\w\s:,'"]*$/`. -/
def endsWithDecorator2 (bc : List Char) : Bool :=
  match bc.reverse.dropWhile decoTailChar with
  | '\x7b' :: r2 =>
    match r2.dropWhile jsWs with
    | '(' :: r3 =>
      let r4 := r3.dropWhile jsWs
      !(r4.takeWhile wordChar).isEmpty &&
      (match r4.dropWhile wordChar with | '@' :: _ => true | _ => false)
    | _ => false
  | _ => false

/-- `/\.\w+\s*\(\s*$/`. -/
def endsWithMethodCallDot (bc : List Char) : Bool :=
  match bc.reverse.dropWhile jsWs with
  | '(' :: r2 =>
    let r3 := r2.dropWhile jsWs
    !(r3.takeWhile wordChar).isEmpty &&
    (match r3.dropWhile wordChar with | '.' :: _ => true | _ => false)
  | _ => false

/-- `/\w+\s*:\s*$/`. -/
def endsWithPropColon (bc : List Char) : Bool :=
  match bc.reverse.dropWhile jsWs with
  | ':' :: r2 => (match r2.dropWhile jsWs with | c :: _ => wordChar c | [] => false)
  | _ => false

/-- `/\[\s*$/ || /,\s*$/`. -/
def endsWithArrayPos (bc : List Char) : Bool :=
  match bc.reverse.dropWhile jsWs with
  | '[' :: _ => true
  | ',' :: _ => true
  | _ => false

/-- `/{\s*$/ || /[,{]\s*\w*\s*$/`. -/
def endsWithObjectKey (bc : List Char) : Bool :=
  (match bc.reverse.dropWhile jsWs with | '\x7b' :: _ => true | _ => false) ||
  (match ((bc.reverse.dropWhile jsWs).dropWhile wordChar).dropWhile jsWs with
   | ',' :: _ => true
   | '\x7b' :: _ => true
   | _ => false)

/-- `/throw\s+new\s+\w+\s*\(\s*$/`. -/
def endsWithThrowNew (bc : List Char) : Bool :=
  match bc.reverse.dropWhile jsWs with
  | '(' :: r2 =>
    let r3 := r2.dropWhile jsWs
    if (r3.takeWhile wordChar).isEmpty then false
    else
      let r4 := r3.dropWhile wordChar
      if (r4.takeWhile jsWs).isEmpty then false
      else
        let r5 := r4.dropWhile jsWs
        if startsL "new".data.reverse r5 then
          let r6 := r5.drop 3
          if (r6.takeWhile jsWs).isEmpty then false
          else startsL "throw".data.reverse (r6.dropWhile jsWs)
        else false
  | _ => false

/-- `/console\.\w+\s*\(\s*$/`. -/
def endsWithConsoleCall (bc : List Char) : Bool :=
  match bc.reverse.dropWhile jsWs with
  | '(' :: r2 =>
    let r3 := r2.dropWhile jsWs
    if (r3.takeWhile wordChar).isEmpty then false
    else
      match r3.dropWhile wordChar with
      | '.' :: r4 => startsL "console".data.reverse r4
      | _ => false
  | _ => false

/-- `/^\s*import\s+/` on the trimmed-at-build `line`. -/
def lineStartsImport (line : List Char) : Bool :=
  let l1 := line.dropWhile jsWs
  startsL "import".data l1 &&
  (match l1.drop 6 with | c :: _ => jsWs c | [] => false)

/-- `/if\s*\(|switch\s*\(|case\s+/` scanned anywhere. -/
def hasConditionalMark : List Char → Bool
  | [] => false
  | c :: rest =>
    (startsL "if".data (c :: rest) && parenAfterWs ((c :: rest).drop 2)) ||
    (startsL "switch".data (c :: rest) && parenAfterWs ((c :: rest).drop 6)) ||
    (startsL "case".data (c :: rest) &&
      (match (c :: rest).drop 4 with | d :: _ => jsWs d | [] => false)) ||
    hasConditionalMark rest
where
  /-- `\s*` then `(`. -/
  parenAfterWs (s : List Char) : Bool :=
    match s.dropWhile jsWs with | '(' :: _ => true | _ => false

/-- `/\w+\s*[:=]\s*$/` (the assignment test of the TypeScript replace path,
part_006 693). -/
def endsWithAssign (bc : List Char) : Bool :=
  match bc.reverse.dropWhile jsWs with
  | c :: r2 =>
    (c = ':' || c = '=') &&
    (match r2.dropWhile jsWs with | d :: _ => wordChar d | [] => false)
  | [] => false

/-- `isClassLevelProperty` (part_006 939-947): the last five lines of the
`beforeContext` window, joined, must entirely match
`/^\s*(private|public|protected|readonly)?\s*\w+\s*[:=]\s*$/` or
`/^\s*\w+\s*[:=]\s*$/`. -/
def matchPropNoKw (s : List Char) : Bool :=
  let t1 := s.dropWhile jsWs
  !(t1.takeWhile wordChar).isEmpty &&
  (match (t1.dropWhile wordChar).dropWhile jsWs with
   | c :: rest => (c = ':' || c = '=') && (rest.dropWhile jsWs).isEmpty
   | [] => false)

/-- The keyword-bearing form of the class-property pattern. -/
def matchPropKw (kw s : List Char) : Bool :=
  let t1 := s.dropWhile jsWs
  startsL kw t1 && matchPropNoKw (t1.drop kw.length)

/-- `isClassLevelProperty(beforeContext)` (part_006 939-947). -/
def isClassLevelProperty (bc : List Char) : Bool :=
  let lastFew := joinWith '\n' (lastN 5 (splitChar '\n' bc))
  [ "private", "public", "protected", "readonly" ].any
    (fun k => matchPropKw k.data lastFew) ||
  matchPropNoKw lastFew

/-- Non-overlapping left-to-right global matching (`pattern.exec` with the
`g` flag): `try0` attempts a match at the current position and yields its
length; matches are `(index, length)` pairs. -/
def execG (try0 : List Char → Option Nat) : List Char → Nat → Nat → List (Nat × Nat)
  | [], _, _ => []
  | c :: rest, i, skip =>
    match skip with
    | n + 1 => execG try0 rest (i + 1) n
    | 0 =>
      match try0 (c :: rest) with
      | some len => (i, len) :: execG try0 rest (i + 1) (len - 1)
      | none => execG try0 rest (i + 1) 0

/-- `/@(Component|Injectable|Directive|Pipe|NgModule)\s*\(/` at the current
position. -/
def tryDecoMatch (s : List Char) : Option Nat :=
  match s with
  | '@' :: rest =>
    match [ "Component", "Injectable", "Directive", "Pipe", "NgModule"
          ].find? (fun n => startsL n.data rest) with
    | some n =>
      let afterName := rest.drop n.length
      let wsLen := (afterName.takeWhile jsWs).length
      match afterName.drop wsLen with
      | '(' :: _ => some (1 + n.length + wsLen + 1)
      | _ => none
    | none => none
  | _ => none

/-- The parenthesis walk of `isInComponentDecorator` (part_006 921-928):
advance `pos` until the count returns to zero or the context ends. -/
def parenWalkPos : List Char → Nat → Nat → Nat
  | [], pos, _ => pos
  | c :: rest, pos, count =>
    if count = 0 then pos
    else
      parenWalkPos rest (pos + 1)
        (if c = '(' then count + 1 else if c = ')' then count - 1 else count)

/-- `isInComponentDecorator(context, stringIndex)` (part_006 913-937),
including its literal index arithmetic against `context.length - 500`. -/
def isInComponentDecorator (context : List Char) (stringIndex : Nat) : Bool :=
  (execG tryDecoMatch context 0 0).any fun m =>
    let pos := parenWalkPos (context.drop (m.1 + m.2)) (m.1 + m.2) 1
    let cl : Int := context.length
    (stringIndex : Int) ≥ (m.1 : Int) + cl - 500 &&
    (stringIndex : Int) ≤ (pos : Int) + cl - 500

/-! ### `isInsideMethod` (part_006 949-990) -/

/-- Consume `\w+` (at least one word character). -/
def eatWord (s : List Char) : Option (List Char) :=
  if (s.takeWhile wordChar).isEmpty then none else some (s.dropWhile wordChar)

/-- Consume a literal. -/
def eatLit (lit s : List Char) : Option (List Char) :=
  if startsL lit s then some (s.drop lit.length) else none

/-- Consume one expected character. -/
def eatChar (c : Char) (s : List Char) : Option (List Char) :=
  match s with
  | x :: r => if x = c then some r else none
  | [] => none

/-- Consume `\s+`. -/
def eatWsPlus (s : List Char) : Option (List Char) :=
  match s with
  | c :: _ => if jsWs c then some (s.dropWhile jsWs) else none
  | [] => none

/-- `/\w+\s*\([^)]*\)\s*:\s*\w+\s*\{/` at the current position. -/
def tryMethodPat1 (s : List Char) : Option Nat := do
  let a ← eatWord s
  let b ← eatChar '(' (a.dropWhile jsWs)
  let c ← eatChar ')' (b.dropWhile fun x => x ≠ ')')
  let d ← eatChar ':' (c.dropWhile jsWs)
  let e ← eatWord (d.dropWhile jsWs)
  let f ← eatChar '\x7b' (e.dropWhile jsWs)
  some (s.length - f.length)

/-- `/\w+\s*\([^)]*\)\s*\{/` at the current position. -/
def tryMethodPat2 (s : List Char) : Option Nat := do
  let a ← eatWord s
  let b ← eatChar '(' (a.dropWhile jsWs)
  let c ← eatChar ')' (b.dropWhile fun x => x ≠ ')')
  let f ← eatChar '\x7b' (c.dropWhile jsWs)
  some (s.length - f.length)

/-- `/constructor\s*\([^)]*\)\s*\{/` at the current position. -/
def tryMethodPat3 (s : List Char) : Option Nat := do
  let a ← eatLit "constructor".data s
  let b ← eatChar '(' (a.dropWhile jsWs)
  let c ← eatChar ')' (b.dropWhile fun x => x ≠ ')')
  let f ← eatChar '\x7b' (c.dropWhile jsWs)
  some (s.length - f.length)

/-- `/=\s*\([^)]*\)\s*=>\s*\{/` at the current position. -/
def tryMethodPat4 (s : List Char) : Option Nat := do
  let a ← eatChar '=' s
  let b ← eatChar '(' (a.dropWhile jsWs)
  let c ← eatChar ')' (b.dropWhile fun x => x ≠ ')')
  let d ← eatLit "=>".data (c.dropWhile jsWs)
  let f ← eatChar '\x7b' (d.dropWhile jsWs)
  some (s.length - f.length)

/-- `/function\s+\w+\s*\([^)]*\)\s*\{/` at the current position. -/
def tryMethodPat5 (s : List Char) : Option Nat := do
  let a ← eatLit "function".data s
  let a2 ← eatWsPlus a
  let a3 ← eatWord a2
  let b ← eatChar '(' (a3.dropWhile jsWs)
  let c ← eatChar ')' (b.dropWhile fun x => x ≠ ')')
  let f ← eatChar '\x7b' (c.dropWhile jsWs)
  some (s.length - f.length)

/-- The brace count walk of `isInsideMethod` (part_006 976-987): starting
inside a method at count 1, return `false` as soon as the count reaches
zero, `count > 0` at the end. -/
def braceWalkAlive : List Char → Nat → Bool
  | [], count => decide (count > 0)
  | c :: rest, count =>
    let count' :=
      if c = '\x7b' then count + 1
      else if c = '\x7d' then count - 1
      else count
    if count' = 0 then false else braceWalkAlive rest count'

/-- `isInsideMethod(context)` (part_006 949-990): find the latest end of any
method-signature match, then walk braces from there. -/
def isInsideMethod (context : List Char) : Bool :=
  let ends :=
    [ tryMethodPat1, tryMethodPat2, tryMethodPat3, tryMethodPat4, tryMethodPat5
    ].flatMap fun p => (execG p context 0 0).map fun m => m.1 + m.2
  match ends.max? with
  | none => false
  | some methodStart => braceWalkAlive (context.drop methodStart) 1

/-! ### `isInComment` (part_006 843-877) -/

/-- `content.indexOf(pat, from)` with JavaScript's `-1` failure value. -/
def jsIndexOf (pat s : List Char) (from0 : Nat) : Int :=
  match idxOfSubFrom pat s from0 with
  | some i => i
  | none => -1

/-- The block-comment search loop of `isInComment` (part_006 856-874);
`fuel` bounds the iteration count (each step advances `searchIndex` by at
least two, so `position` iterations always suffice). -/
def blockCommentLoop (content beforePosition : List Char) (position : Nat) :
    Nat → Nat → Bool
  | 0, _ => false
  | fuel + 1, searchIndex =>
    if searchIndex < position then
      match idxOfSubFrom ['/', '*'] beforePosition searchIndex with
      | some nextStart =>
        if nextStart < position then
          match idxOfSubFrom ['*', '/'] content (nextStart + 2) with
          | some ce =>
            if position < ce then true
            else blockCommentLoop content beforePosition position fuel (nextStart + 2)
          | none => blockCommentLoop content beforePosition position fuel (nextStart + 2)
        else false
      | none => false
    else false

/-- `isInComment(content, position)` (part_006 843-877), including the
source's `content.indexOf('\n', position) || content.length` quirk (a `-1`
from `indexOf` is truthy and flows into `substring`, which swaps and clamps
its endpoints). -/
def isInComment (content : List Char) (position : Nat) : Bool :=
  let beforePosition := content.take position
  let lastLineStart : Int :=
    match lastIdxOfChar '\n' beforePosition with
    | some i => (i : Int)
    | none => -1
  let nlAfter : Int := jsIndexOf ['\n'] content position
  let endIdx : Int := if nlAfter = 0 then (content.length : Int) else nlAfter
  let currentLine := jsSubstring content (lastLineStart + 1) endIdx
  let commentIndex : Int := jsIndexOf ['/', '/'] currentLine 0
  (commentIndex ≠ -1 &&
    (position : Int) - lastLineStart - 1 > commentIndex) ||
  blockCommentLoop content beforePosition position (position + 1) 0

/-! ### `getStringContext` (part_006 879-911) -/

/-- The classification context built for each TypeScript string literal.
`beforeContext` is stored lowercased (as in the source); the flags are
computed from the original-case local window. -/
structure P6Context where
  line : List Char := []
  beforeContext : List Char := []
  largerContext : List Char := []
  isImport : Bool := false
  isRequire : Bool := false
  isDecorator : Bool := false
  isComponentDecorator : Bool := false
  isClassProperty : Bool := false
  isMethodCall : Bool := false
  isProperty : Bool := false
  isArray : Bool := false
  isObjectKey : Bool := false
  isConditional : Bool := false
  isThrow : Bool := false
  isConsole : Bool := false
  isInMethod : Bool := false
deriving Repr, DecidableEq

/-- `getStringContext(content, stringIndex)` (part_006 879-911). -/
def getStringContext (content : List Char) (stringIndex : Nat) : P6Context :=
  let lineStart : Int :=
    (match lastIdxOfChar '\n' (content.take (stringIndex + 1)) with
     | some i => (i : Int)
     | none => -1) + 1
  let lineEnd : Int := jsIndexOf ['\n'] content stringIndex
  let line :=
    jsTrim (jsSubstring content lineStart
      (if lineEnd = -1 then (content.length : Int) else lineEnd))
  let bc := (content.take stringIndex).drop (stringIndex - 200)
  let lc := (content.take stringIndex).drop (stringIndex - 500)
  { line := line
    beforeContext := jsLower bc
    largerContext := lc
    isImport := lineStartsImport line
    isRequire := endsWithRequireParen bc
    isDecorator := endsWithDecorator1 bc || endsWithDecorator2 bc
    isComponentDecorator := isInComponentDecorator lc stringIndex
    isClassProperty := isClassLevelProperty bc
    isMethodCall := endsWithMethodCallDot bc
    isProperty := endsWithPropColon bc
    isArray := endsWithArrayPos bc
    isObjectKey := endsWithObjectKey bc
    isConditional := hasConditionalMark bc
    isThrow := endsWithThrowNew bc
    isConsole := endsWithConsoleCall bc
    isInMethod := isInsideMethod lc }

/-! ### The part_006 `isDisplayText` (part_006 992-1145) -/

/-- `/^[a-z][a-zA-Z0-9]*$/.test(trimmed) && /[A-Z]/.test(trimmed)`
(part_006 1017): a camelCase identifier. -/
def camelCaseLike (s : List Char) : Bool :=
  (match s with
   | c :: rest => lowerAZ c && rest.all fun d => alphaAZ d || digitC d
   | [] => false) &&
  s.any upperAZ

/-- `/^[a-z0-9]+(-[a-z0-9]+)+$/` (part_006 1022): a kebab-case token. -/
def kebabCaseLike (s : List Char) : Bool :=
  let parts := splitChar '-' s
  decide (parts.length ≥ 2) &&
  parts.all fun p => !p.isEmpty && p.all fun c => lowerAZ c || digitC c

/-- `isLikelyUserFacingContent` (part_006 1153-1165).  The fourth pattern
`/\s+.*\s+/` holds exactly when the text has at least two whitespace
characters: two such characters at the closest distance have no whitespace
(hence no line break) between them. -/
def isLikelyUserFacingContent (text : List Char) : Bool :=
  let l := jsLower text
  ((["welcome", "hello", "thank you", "please", "error", "warning",
     "success", "message"].any fun w => containsSub w.data l) ||
   (["click", "button", "save", "cancel", "submit", "login", "logout"
    ].any fun w => containsSub w.data l) ||
   (["your", "you", "we", "our", "this", "that", "here", "there"
    ].any fun w => containsSub w.data l) ||
   decide (text.countP jsWs ≥ 2)) &&
  decide (text.length > 5) &&
  !isCodeIdentifier text

/-- The part_006 `isDisplayText(text, context)` (part_006 992-1145): the
early screens, the single-word/camelCase/kebab-case rejections, the richer
context block, and the same tail battery as extractor.js. -/
def isDisplayTextP6 (text : List Char) (context : Option P6Context) : Bool :=
  let trimmed := jsTrim text
  if translationKeyLike trimmed then false
  else if patWholeDollarBrace trimmed || assetsI18nJson trimmed then false
  else if hasDollarBraceParts trimmed then false
  else if !trimmed.any jsWs && trimmed.length < 25 then false
  else if camelCaseLike trimmed then false
  else if kebabCaseLike trimmed then false
  else
    match context with
    | some c =>
      if c.isImport || c.isRequire then false
      else if c.isDecorator || c.isComponentDecorator then false
      else if c.isClassProperty && !c.isInMethod then false
      else if c.isThrow && c.isInMethod then isUserFacingErrorMessage trimmed
      else if c.isThrow && !c.isInMethod then false
      else if c.isConsole then false
      else if c.isProperty && isCodeIdentifier trimmed then false
      else if c.isArray && isCodeIdentifier trimmed then false
      else if !c.isInMethod && !isLikelyUserFacingContent trimmed then false
      else displayTextTail trimmed
    | none => displayTextTail trimmed

/-! ### `extractStringLiterals` (part_006 806-840) -/

/-- Close a quoted literal: the body is `([^q\\]|\\.)*` followed by the
closing quote; a backslash escapes the next character unless it is a line
break (which `\\.` cannot match).  Returns the number of characters
consumed including the closing quote. -/
def tryCloseQuote (q : Char) : List Char → Option Nat
  | [] => none
  | c :: rest =>
    if c = q then some 1
    else if c = '\\' then
      match rest with
      | d :: rest' =>
        if d = '\n' || d = '\r' then none
        else (tryCloseQuote q rest').map (· + 2)
      | [] => none
    else (tryCloseQuote q rest).map (· + 1)

/-- A whole quoted literal at the current position. -/
def tryQuoteLit (q : Char) (s : List Char) : Option Nat :=
  match s with
  | c :: rest => if c = q then (tryCloseQuote q rest).map (· + 1) else none
  | [] => none

/-- One accepted string literal: the full match (with quotes), the inner
value, and its context. -/
structure TsLiteral where
  full : List Char
  value : List Char
  context : P6Context
deriving Repr, DecidableEq

/-- `extractStringLiterals(content)` (part_006 806-840): the single-quote,
double-quote and template-literal patterns are scanned in that order; each
match outside a comment whose value is nonempty and classified as display
text is kept. -/
def extractStringLiterals (content : List Char) : List TsLiteral :=
  [ quoteSingle, quoteDouble, quoteBack ].flatMap fun q =>
    (execG (tryQuoteLit q) content 0 0).filterMap fun m =>
      if isInComment content m.1 then none
      else
        let full := (content.drop m.1).take m.2
        let value := (full.drop 1).take (m.2 - 2)
        let ctx := getStringContext content m.1
        if decide (value.length > 0) && isDisplayTextP6 value (some ctx) then
          some ⟨full, value, ctx⟩
        else none

/-! ### `extractFromTypeScriptFile` (part_006 675-729) -/

/-- Replace the first occurrence of a literal pattern
(`String.prototype.replace` with a string pattern). -/
def replaceFirstSub (pat rep : List Char) : List Char → List Char
  | [] => []
  | c :: rest =>
    if !pat.isEmpty && startsL pat (c :: rest) then
      rep ++ (c :: rest).drop pat.length
    else c :: replaceFirstSub pat rep rest

/-- The substitution text chosen for one literal (part_006 693-714):
`'<key>' | translate` after an assignment-looking prefix,
`this.translate.instant('<key>')` otherwise (the method-call branch and the
default branch produce the same text). -/
def tsReplacementFor (key : List Char) (ctx : P6Context) : List Char :=
  let isInAssignment := endsWithAssign ctx.beforeContext
  let isInMethodCall := endsWithMethodCallDot ctx.beforeContext
  if isInAssignment then
    quoteSingle :: key ++ quoteSingle :: " | translate".data
  else if isInMethodCall then
    "this.translate.instant(".data ++ quoteSingle :: key ++ [quoteSingle, ')']
  else
    "this.translate.instant(".data ++ quoteSingle :: key ++ [quoteSingle, ')']

/-- `ensureTranslateServiceIntegration` (part_006 731-785) adds an import
and a constructor injection to already-rewritten content.  It runs only on
the `replace` path, which no verified claim exercises; it is modelled as the
identity on the content. -/
def ensureTranslateServiceIntegrationModel (content : List Char)
    (_filePath : List Char) : List Char :=
  content

/-- `extractFromTypeScriptFile(filePath)` (part_006 675-729).  The component
context is set first; a failing read is caught and becomes a warning.  Each
accepted literal that is not `isExcluded` is keyed and recorded; under
`replace` the literal is substituted in the content, and the file is written
back only when at least one substitution happened (`hasReplacements`). -/
def extractFromTypeScriptFile (opts : Options) (filePath : List Char)
    (read : Except (List Char) (List Char)) (st : SessionState) : FileResult :=
  let st1 := setComponentContext st filePath
  match read with
  | .error msg => ⟨st1, [], [(tsWarnHead filePath, msg)]⟩
  | .ok content =>
    let folded := (extractStringLiterals content).foldl
      (fun (acc : SessionState × List Char × Bool) lit =>
        if !isExcluded lit.value then
          let r := generateKey opts acc.1 lit.value none
          let sess :=
            { r.2 with extractedTexts := mapSet r.2.extractedTexts r.1 lit.value }
          if opts.replace then
            (sess,
             replaceFirstSub lit.full (tsReplacementFor r.1 lit.context) acc.2.1,
             true)
          else (sess, acc.2.1, acc.2.2)
        else acc)
      (st1, content, false)
    if opts.replace && folded.2.2 then
      ⟨folded.1,
       [(filePath, ensureTranslateServiceIntegrationModel folded.2.1 filePath)],
       []⟩
    else ⟨folded.1, [], []⟩

/-! ### The part_006 directory pass and the session artifact -/

/-- The HTML-file loop of the part_006 `extractFromDirectory`
(part_006 1214-1218). -/
def runHtmlFilesP6 (opts : Options) :
    List (List Char × Except (List Char) HForest) → SessionState → FileResult
  | [], st => ⟨st, [], []⟩
  | f :: rest, st =>
    let r := extractFromHtmlTemplateP6 opts f.1 f.2 st
    let d := runHtmlFilesP6 opts rest r.st
    ⟨d.st, r.writes ++ d.writes, r.warns ++ d.warns⟩

/-- The TypeScript-file loop of the part_006 `extractFromDirectory`
(part_006 1221-1225). -/
def runTsFilesP6 (opts : Options) :
    List (List Char × Except (List Char) (List Char)) → SessionState → FileResult
  | [], st => ⟨st, [], []⟩
  | f :: rest, st =>
    let r := extractFromTypeScriptFile opts f.1 f.2 st
    let d := runTsFilesP6 opts rest r.st
    ⟨d.st, r.writes ++ d.writes, r.warns ++ d.warns⟩

/-- `ensureTranslateInfrastructure` (part_006 1231-1310) creates
`shared/translate.service.ts` when `replace` is set and the service is
missing; the scaffold's text (a fixed TypeScript template, part_006
1244-1303) is not relevant to any verified claim and is left empty here. -/
def translateInfrastructureWrites (dirPath : List Char)
    (serviceExists : Bool) : List (List Char × List Char) :=
  if serviceExists then []
  else [(dirPath ++ "/shared/translate.service.ts".data, [])]

/-- The part_006 `extractFromDirectory(dirPath)` (part_006 1193-1229):
scaffold under `replace`, then the HTML files, then — unless `excludeTs` —
the TypeScript files. -/
def extractFromDirectoryP6 (opts : Options) (dirPath : List Char)
    (htmlFiles : List (List Char × Except (List Char) HForest))
    (tsFiles : List (List Char × Except (List Char) (List Char)))
    (serviceExists : Bool) (st : SessionState) : FileResult :=
  let infraW :=
    if opts.replace then translateInfrastructureWrites dirPath serviceExists
    else []
  let h := runHtmlFilesP6 opts htmlFiles st
  let t :=
    if !opts.excludeTs then runTsFilesP6 opts tsFiles h.st
    else ⟨h.st, [], []⟩
  ⟨t.st, infraW ++ h.writes ++ t.writes, h.warns ++ t.warns⟩

/-- The metadata block of the output artifact. -/
structure ArtifactMeta where
  extractedAt : List Char
  totalTexts : Nat
  keyPfx : List Char

/-- The output artifact produced by `saveToJSON` (extractor.js 415-436,
identical in part_006); its JSON rendering is an external collaborator and
is not modelled. -/
structure Artifact where
  locale : List Char
  translations : List (List Char × List Char)
  metadata : ArtifactMeta

/-- A file-system write performed by a session: a source rewrite or the
artifact emission. -/
inductive FsWrite where
  | sourceFile (path content : List Char)
  | artifactOut (path : List Char) (a : Artifact)

/-- `saveToJSON(outputPath)` (extractor.js 415-436): the translations object
is the insertion-ordered map, `totalTexts` its size. -/
def saveToJSON (opts : Options) (st : SessionState) (now : List Char) :
    Artifact :=
  { locale := opts.locale
    translations := st.extractedTexts
    metadata :=
      { extractedAt := now
        totalTexts := st.extractedTexts.length
        keyPfx := opts.keyPfx } }

/-- The fresh state built by the `TextExtractor` constructor
(extractor.js 6-12). -/
def initialState : SessionState :=
  { extractedTexts := [], keyCounter := 1, currentComponentContext := none }

/-- `extractTexts(options)` for the extractor.js pipeline
(extractor.js 439-443): one directory pass from a fresh extractor, then the
artifact write. -/
def extractTextsJs (opts : Options)
    (files : List (List Char × Except (List Char) HForest))
    (outputPath now : List Char) :
    Artifact × List FsWrite × List (List Char × List Char) :=
  let d := extractFromDirectory opts files initialState
  let a := saveToJSON opts d.st now
  (a,
   d.writes.map (fun w => FsWrite.sourceFile w.1 w.2) ++
     [FsWrite.artifactOut outputPath a],
   d.warns)

/-- `extractTexts(options)` for the part_006 pipeline (part_006 1454-1458). -/
def extractTextsP6 (opts : Options) (dirPath : List Char)
    (htmlFiles : List (List Char × Except (List Char) HForest))
    (tsFiles : List (List Char × Except (List Char) (List Char)))
    (serviceExists : Bool) (outputPath now : List Char) :
    Artifact × List FsWrite × List (List Char × List Char) :=
  let d := extractFromDirectoryP6 opts dirPath htmlFiles tsFiles serviceExists
    initialState
  let a := saveToJSON opts d.st now
  (a,
   d.writes.map (fun w => FsWrite.sourceFile w.1 w.2) ++
     [FsWrite.artifactOut outputPath a],
   d.warns)

/-! ### Concrete scenarios used by the claims -/

/-- The end-to-end scenario options: `keyPrefix="app"`, `replace=false`. -/
def c1Opts : Options :=
  { keyPfx := "app".data, locale := "en".data }

/-- The markup file `<h1>Welcome to our app</h1>`, parsed. -/
def c1HtmlDoc : HForest :=
  .cons (.elem "h1".data [] (.cons (.text "Welcome to our app".data) .nil)) .nil

/-- The component-logic file containing `title = 'Welcome to our app';`. -/
def c1TsContent : List Char :=
  "export class AppComponent \x7b\n  title = ".data ++ quoteSingle ::
    "Welcome to our app".data ++ quoteSingle :: ";\n\x7d\n".data

/-- One session over the two scenario files (markup first, then logic, as
`extractFromDirectory` orders them). -/
def c1Run : Artifact × List FsWrite × List (List Char × List Char) :=
  extractTextsP6 c1Opts "src".data
    [("app.component.html".data, .ok c1HtmlDoc)]
    [("app.component.ts".data, .ok c1TsContent)]
    true "i18n/messages.json".data "2026-01-01T00:00:00.000Z".data

/-- A template whose only extraction candidate is the attribute value
`userId` — an identifier the classifier rejects. -/
def c3ImgDoc : HForest :=
  .cons (.elem "img".data [("alt".data, "userId".data)] .nil) .nil

/-- A template in which nothing is extractable (`123` is `isExcluded`). -/
def c4PlainDoc : HForest :=
  .cons (.elem "p".data [] (.cons (.text "123".data) .nil)) .nil

/-- The per-(element, attribute) extraction condition of the attribute pass
(extractor.js 183-189), recomputed declaratively: the first attribute with
the given name, when its value is nonempty, not `isExcluded` and free of
`{{`/`}}`/`[`/`(`. -/
def candOf (e : ElemInfo) (an : List Char) : Option (List Char) :=
  match e.attrs.find? (fun p => p.1 = an) with
  | some p =>
    if attrValueEligible p.2 && !attrValueHasBindingMarks p.2 then some p.2
    else none
  | none => none

/-- All attribute values the attribute pass extracts from a document, in
visit order. -/
def attrCandidateValues (elems : List ElemInfo) : List (List Char) :=
  elems.flatMap fun e => attrNames.filterMap fun an => candOf e an.data

/-- Session states whose recorded keys all embed counters below the running
counter; all states reachable from `initialState` satisfy this, and it makes
every newly generated key fresh for the `extractedTexts` map. -/
def FreshKeys (st : SessionState) : Prop :=
  ∀ p ∈ st.extractedTexts, counterOfKey p.1 < st.keyCounter

instance (st : SessionState) : Decidable (FreshKeys st) := by
  unfold FreshKeys
  infer_instance

/-! ### Helper lemmas: the counter suffix of generated keys -/

theorem digitChar10_ne_underscore (d : Nat) : digitChar10 d ≠ '_' := by
  unfold digitChar10
  split <;> decide

theorem natToCharsCore_no_underscore (fuel n : Nat) :
    ∀ c ∈ natToCharsCore fuel n, c ≠ '_' := by
  induction fuel generalizing n with
  | zero => intro c hc; simp [natToCharsCore] at hc
  | succ fuel ih =>
    intro c hc
    match n with
    | 0 => simp [natToCharsCore] at hc
    | m + 1 =>
      simp only [natToCharsCore, List.mem_append, List.mem_singleton] at hc
      rcases hc with hc | hc
      · exact ih _ c hc
      · rw [hc]; exact digitChar10_ne_underscore _

theorem natToChars_no_underscore (n : Nat) : ∀ c ∈ natToChars n, c ≠ '_' := by
  intro c hc
  unfold natToChars at hc
  split at hc
  · simp at hc; rw [hc]; decide
  · exact natToCharsCore_no_underscore n n c hc

theorem digitChar10_toNat (d : Nat) (hd : d < 10) :
    (digitChar10 d).toNat - 48 = d := by
  interval_cases d <;> decide

theorem foldl_natToCharsCore (fuel : Nat) :
    ∀ n acc, n ≤ fuel →
      List.foldl (fun acc c => acc * 10 + (c.toNat - 48)) acc
          (natToCharsCore fuel n)
        = acc * 10 ^ (natToCharsCore fuel n).length + n := by
  induction fuel with
  | zero =>
    intro n acc hn
    interval_cases n
    simp [natToCharsCore]
  | succ fuel ih =>
    intro n acc hn
    match n with
    | 0 => simp [natToCharsCore]
    | m + 1 =>
      have hq : (m + 1) / 10 ≤ fuel := by
        have h1 : (m + 1) / 10 < m + 1 := Nat.div_lt_self (Nat.succ_pos m) (by omega)
        omega
      have hr : (m + 1) % 10 < 10 := Nat.mod_lt _ (by omega)
      simp only [natToCharsCore, List.foldl_append, List.foldl_cons,
        List.foldl_nil, List.length_append, List.length_cons,
        List.length_nil, ih _ acc hq, digitChar10_toNat _ hr]
      rw [Nat.pow_succ]
      have := Nat.div_add_mod (m + 1) 10
      ring_nf
      omega

theorem charsToNat_natToChars (n : Nat) : charsToNat (natToChars n) = n := by
  unfold natToChars charsToNat
  split
  · simp_all
  · rw [foldl_natToCharsCore n n 0 (Nat.le_refl n)]
    simp

theorem takeWhile_append_of_all (p : Char → Bool) (as bs : List Char)
    (h : ∀ a ∈ as, p a) :
    (as ++ bs).takeWhile p = as ++ bs.takeWhile p := by
  induction as with
  | nil => simp
  | cons a as ih =>
    have ha : p a = true := h a (List.mem_cons_self a as)
    simp only [List.cons_append, List.takeWhile_cons, ha, if_true]
    rw [ih fun x hx => h x (List.mem_cons_of_mem a hx)]

theorem afterUnderscore_append (xs ds : List Char)
    (h : ∀ c ∈ ds, c ≠ '_') :
    afterUnderscore (xs ++ '_' :: ds) = ds := by
  unfold afterUnderscore
  rw [List.reverse_append, List.reverse_cons, List.append_assoc]
  rw [takeWhile_append_of_all _ ds.reverse _
    (by simpa using fun c hc => by simpa using h c hc)]
  simp

theorem counterOfKey_generateKeyChars (pfx : List Char)
    (ctx : Option (List Char)) (text : List Char) (n : Nat) :
    counterOfKey (generateKeyChars pfx ctx text n) = n := by
  unfold counterOfKey generateKeyChars
  have : pfx ++ '.' ::
      ((match ctx with
        | some c => if c.isEmpty then [] else c ++ ['.']
        | none => []) ++ cleanTextOf text ++ '_' :: natToChars n)
      = (pfx ++ '.' ::
          ((match ctx with
            | some c => if c.isEmpty then [] else c ++ ['.']
            | none => []) ++ cleanTextOf text)) ++ '_' :: natToChars n := by
    simp [List.append_assoc]
  rw [this, afterUnderscore_append _ _ (natToChars_no_underscore n),
    charsToNat_natToChars]

/-- A sequence of `generateKey` calls in one session, each with its text and
optional explicit file path, threading the session state through (the source
mutates `this.keyCounter`). -/
def runGenerateKeys (opts : Options) (st : SessionState) :
    List (List Char × Option (List Char)) → List (List Char)
  | [] => []
  | (t, fp) :: rest =>
    let r := generateKey opts st t fp
    r.1 :: runGenerateKeys opts r.2 rest

theorem counterOfKey_mem_runGenerateKeys (opts : Options) :
    ∀ (calls : List (List Char × Option (List Char))) (st : SessionState)
      (k : List Char), k ∈ runGenerateKeys opts st calls →
      st.keyCounter ≤ counterOfKey k := by
  intro calls
  induction calls with
  | nil => intro st k hk; simp [runGenerateKeys] at hk
  | cons c rest ih =>
    intro st k hk
    obtain ⟨t, fp⟩ := c
    simp only [runGenerateKeys, List.mem_cons] at hk
    rcases hk with hk | hk
    · rw [hk]
      simp [generateKey, counterOfKey_generateKeyChars]
    · have := ih _ k hk
      simp only [generateKey] at this
      omega

theorem runGenerateKeys_pairwise (opts : Options) :
    ∀ (calls : List (List Char × Option (List Char))) (st : SessionState),
      (runGenerateKeys opts st calls).Pairwise (· ≠ ·) := by
  intro calls
  induction calls with
  | nil => intro st; simp [runGenerateKeys]
  | cons c rest ih =>
    intro st
    obtain ⟨t, fp⟩ := c
    simp only [runGenerateKeys]
    refine List.Pairwise.cons ?_ (ih _)
    intro k hk heq
    have hge := counterOfKey_mem_runGenerateKeys opts rest _ k hk
    simp only [generateKey] at hge hk heq
    rw [← heq] at hge
    rw [counterOfKey_generateKeyChars] at hge
    omega


/-! ### Helper lemmas: the attribute pass -/

theorem mapSet_append_of_fresh (m : List (List Char × List Char))
    (k v : List Char) (h : ∀ p ∈ m, p.1 ≠ k) :
    mapSet m k v = m ++ [(k, v)] := by
  have hany : m.any (fun p => p.1 = k) = false := by
    rw [List.any_eq_false]
    intro p hp
    simpa using h p hp
  unfold mapSet
  rw [hany]
  simp

theorem attrStepJs_spec (opts : Options) (e : ElemInfo) (an : List Char)
    (acc : SessionState × List (Nat × List Char × List Char))
    (h : FreshKeys acc.1) :
    (attrStepJs opts e acc an).1.extractedTexts.map Prod.snd
        = acc.1.extractedTexts.map Prod.snd ++ (candOf e an).toList ∧
    FreshKeys (attrStepJs opts e acc an).1 := by
  cases hf : e.attrs.find? (fun p => p.1 = an) with
  | none =>
    have hstep : attrStepJs opts e acc an = acc := by
      unfold attrStepJs
      rw [hf]
    rw [hstep]
    exact ⟨by simp [candOf, hf], h⟩
  | some p =>
    by_cases he : attrValueEligible p.2
    · by_cases hm : attrValueHasBindingMarks p.2
      · have hstep : attrStepJs opts e acc an = acc := by
          unfold attrStepJs
          rw [hf]
          simp [he, hm]
        rw [hstep]
        exact ⟨by simp [candOf, hf, he, hm], h⟩
      · have hstep : (attrStepJs opts e acc an).1 =
            { extractedTexts :=
                mapSet acc.1.extractedTexts
                  (generateKeyChars opts.keyPfx acc.1.currentComponentContext
                    p.2 acc.1.keyCounter) p.2,
              keyCounter := acc.1.keyCounter + 1,
              currentComponentContext := acc.1.currentComponentContext } := by
          unfold attrStepJs
          rw [hf]
          simp [he, hm, generateKey]
        have hkey : counterOfKey
            (generateKeyChars opts.keyPfx acc.1.currentComponentContext p.2
              acc.1.keyCounter) = acc.1.keyCounter :=
          counterOfKey_generateKeyChars _ _ _ _
        have hne : ∀ q ∈ acc.1.extractedTexts,
            q.1 ≠ generateKeyChars opts.keyPfx acc.1.currentComponentContext
              p.2 acc.1.keyCounter := by
          intro q hq heq
          have := h q hq
          rw [heq, hkey] at this
          omega
        have hset := mapSet_append_of_fresh acc.1.extractedTexts
          (generateKeyChars opts.keyPfx acc.1.currentComponentContext p.2
            acc.1.keyCounter) p.2 hne
        constructor
        · rw [hstep]
          simp only [hset, candOf, hf, he, hm]
          simp
        · rw [hstep]
          intro q hq
          simp only [hset] at hq
          rcases List.mem_append.mp hq with hq' | hq'
          · have := h q hq'
            show counterOfKey q.1 < acc.1.keyCounter + 1
            omega
          · simp only [List.mem_singleton] at hq'
            rw [hq']
            simp [hkey]
    · have hstep : attrStepJs opts e acc an = acc := by
        unfold attrStepJs
        rw [hf]
        simp [he]
      rw [hstep]
      exact ⟨by simp [candOf, hf, he], h⟩

theorem attrFoldNames_spec (opts : Options) (e : ElemInfo) :
    ∀ (ans : List (List Char))
      (acc : SessionState × List (Nat × List Char × List Char)),
      FreshKeys acc.1 →
      ((ans.foldl (attrStepJs opts e) acc).1.extractedTexts.map Prod.snd
        = acc.1.extractedTexts.map Prod.snd ++ ans.filterMap (candOf e)) ∧
      FreshKeys (ans.foldl (attrStepJs opts e) acc).1 := by
  intro ans
  induction ans with
  | nil => intro acc h; exact ⟨by simp, h⟩
  | cons a rest ih =>
    intro acc h
    have hs := attrStepJs_spec opts e a acc h
    have hr := ih (attrStepJs opts e acc a) hs.2
    refine ⟨?_, by simpa using hr.2⟩
    rw [List.foldl_cons, hr.1, hs.1, List.append_assoc, List.filterMap_cons]
    cases candOf e a <;> simp

theorem attrPassAux_spec (opts : Options) :
    ∀ (elems : List ElemInfo)
      (acc : SessionState × List (Nat × List Char × List Char)),
      FreshKeys acc.1 →
      ((elems.foldl
          (fun acc e => attrNames.foldl (fun a an => attrStepJs opts e a an.data) acc)
          acc).1.extractedTexts.map Prod.snd
        = acc.1.extractedTexts.map Prod.snd ++ attrCandidateValues elems) ∧
      FreshKeys (elems.foldl
          (fun acc e => attrNames.foldl (fun a an => attrStepJs opts e a an.data) acc)
          acc).1 := by
  intro elems
  induction elems with
  | nil => intro acc h; exact ⟨by simp [attrCandidateValues], h⟩
  | cons e rest ih =>
    intro acc h
    have hmap : attrNames.foldl (fun a an => attrStepJs opts e a an.data) acc
        = (attrNames.map (fun an => an.data)).foldl (attrStepJs opts e) acc := by
      rw [List.foldl_map]
    have hs := attrFoldNames_spec opts e (attrNames.map (fun an => an.data)) acc h
    have hr := ih (attrNames.foldl (fun a an => attrStepJs opts e a an.data) acc)
      (by rw [hmap]; exact hs.2)
    refine ⟨?_, hr.2⟩
    rw [List.foldl_cons] at *
    rw [hr.1, hmap, hs.1, List.append_assoc]
    simp only [attrCandidateValues, List.flatMap_cons, List.filterMap_map]
    rfl

theorem attrPass_spec (opts : Options) (elems : List ElemInfo)
    (st : SessionState) (h : FreshKeys st) :
    (attrPass (attrStepJs opts) elems st).1.extractedTexts.map Prod.snd
      = st.extractedTexts.map Prod.snd ++ attrCandidateValues elems := by
  have := attrPassAux_spec opts elems (st, []) h
  exact this.1

/-! ### Helper lemmas: no source writes on a dry run -/

theorem extractFromHtmlTemplate_writes_nil (opts : Options)
    (h : opts.replace = false) (f : List Char)
    (r : Except (List Char) HForest) (st : SessionState) :
    (extractFromHtmlTemplate opts f r st).writes = [] := by
  unfold extractFromHtmlTemplate
  cases r with
  | error m => rfl
  | ok doc => simp [h]

theorem extractFromHtmlTemplateP6_writes_nil (opts : Options)
    (h : opts.replace = false) (f : List Char)
    (r : Except (List Char) HForest) (st : SessionState) :
    (extractFromHtmlTemplateP6 opts f r st).writes = [] := by
  unfold extractFromHtmlTemplateP6
  cases r with
  | error m => rfl
  | ok doc => simp [h]

theorem extractFromTypeScriptFile_writes_nil (opts : Options)
    (h : opts.replace = false) (f : List Char)
    (r : Except (List Char) (List Char)) (st : SessionState) :
    (extractFromTypeScriptFile opts f r st).writes = [] := by
  unfold extractFromTypeScriptFile
  cases r with
  | error m => rfl
  | ok c => simp [h]

theorem extractFromDirectory_writes_nil (opts : Options)
    (h : opts.replace = false) :
    ∀ (files : List (List Char × Except (List Char) HForest))
      (st : SessionState),
      (extractFromDirectory opts files st).writes = [] := by
  intro files
  induction files with
  | nil => intro st; rfl
  | cons f rest ih =>
    intro st
    simp [extractFromDirectory, ih, extractFromHtmlTemplate_writes_nil opts h]

theorem runHtmlFilesP6_writes_nil (opts : Options) (h : opts.replace = false) :
    ∀ (files : List (List Char × Except (List Char) HForest))
      (st : SessionState),
      (runHtmlFilesP6 opts files st).writes = [] := by
  intro files
  induction files with
  | nil => intro st; rfl
  | cons f rest ih =>
    intro st
    simp [runHtmlFilesP6, ih, extractFromHtmlTemplateP6_writes_nil opts h]

theorem runTsFilesP6_writes_nil (opts : Options) (h : opts.replace = false) :
    ∀ (files : List (List Char × Except (List Char) (List Char)))
      (st : SessionState),
      (runTsFilesP6 opts files st).writes = [] := by
  intro files
  induction files with
  | nil => intro st; rfl
  | cons f rest ih =>
    intro st
    simp [runTsFilesP6, ih, extractFromTypeScriptFile_writes_nil opts h]

theorem extractFromDirectoryP6_writes_nil (opts : Options)
    (h : opts.replace = false) (dirPath : List Char)
    (htmlFiles : List (List Char × Except (List Char) HForest))
    (tsFiles : List (List Char × Except (List Char) (List Char)))
    (svc : Bool) (st : SessionState) :
    (extractFromDirectoryP6 opts dirPath htmlFiles tsFiles svc st).writes = [] := by
  unfold extractFromDirectoryP6
  by_cases hts : opts.excludeTs <;>
    simp [h, hts, runHtmlFilesP6_writes_nil opts h, runTsFilesP6_writes_nil opts h]

/-! ### Supporting lemma for the warning text -/

theorem startsL_append_self (pat b : List Char) :
    startsL pat (pat ++ b) = true := by
  induction pat with
  | nil => simp [startsL, List.isPrefixOf]
  | cons c rest ih => simp only [startsL, List.cons_append, List.isPrefixOf,
      beq_self_eq_true, Bool.true_and]; exact ih

theorem containsSub_nil_pat : ∀ (b : List Char), containsSub [] b = true
  | [] => rfl
  | c :: rest => by simp [containsSub, startsL, List.isPrefixOf]

theorem containsSub_here (pat b : List Char) :
    containsSub pat (pat ++ b) = true := by
  cases pat with
  | nil => exact containsSub_nil_pat b
  | cons c rest =>
    show (startsL (c :: rest) (c :: (rest ++ b)) ||
      containsSub (c :: rest) (rest ++ b)) = true
    rw [show c :: (rest ++ b) = (c :: rest) ++ b from rfl,
      startsL_append_self]
    simp

theorem containsSub_sandwich (a pat b : List Char) :
    containsSub pat (a ++ pat ++ b) = true := by
  induction a with
  | nil => simpa using containsSub_here pat b
  | cons c rest ih =>
    have h : containsSub pat ((rest ++ pat) ++ b) = true := ih
    show (startsL pat (c :: ((rest ++ pat) ++ b)) ||
      containsSub pat ((rest ++ pat) ++ b)) = true
    rw [h, Bool.or_true]

/-! ## The claims -/

/-- C1: for an input directory with exactly one markup file containing
`<h1>Welcome to our app</h1>` and one component-logic file containing
`title = 'Welcome to our app';`, a session with `keyPrefix="app"` and
`replace=false` produces an output artifact whose `translations` mapping
contains exactly two distinct keys — one per file — both mapping to the
text `Welcome to our app`, and whose `metadata.totalTexts` equals 2. -/
theorem c1_end_to_end_two_keys :
    c1Run.1.translations =
      [("app.app.welcome_to_our_app_1".data, "Welcome to our app".data),
       ("app.app.welcome_to_our_app_2".data, "Welcome to our app".data)] ∧
    "app.app.welcome_to_our_app_1".data ≠ "app.app.welcome_to_our_app_2".data ∧
    c1Run.1.metadata.totalTexts = 2 := by
  decide

/-- C2: within one session every finite sequence of `generateKey` calls —
whatever the texts (identical repeats included) and whatever the optional
per-call component contexts — returns pairwise distinct keys, because each
returned key embeds the counter value current at its call (recoverable as
the decimal segment after the key's last underscore) and the counter is
post-incremented on every call and never reused. -/
theorem c2_generateKey_keys_pairwise_distinct (opts : Options)
    (st : SessionState) (calls : List (List Char × Option (List Char))) :
    (runGenerateKeys opts st calls).Pairwise (· ≠ ·) ∧
    (∀ text fp, counterOfKey (generateKey opts st text fp).1 = st.keyCounter ∧
      (generateKey opts st text fp).2.keyCounter = st.keyCounter + 1) := by
  refine ⟨runGenerateKeys_pairwise opts calls st, ?_⟩
  intro text fp
  exact ⟨by simp [generateKey, counterOfKey_generateKeyChars], rfl⟩

/-- C3 counterexample: in `<img alt="userId">` the `alt` value `userId` is
extracted under its own key although `isDisplayText` classifies it as code
(and it contains no binding syntax): the attribute pass gates on
`isExcluded`, never on the classifier, so the claimed "if and only if
`isDisplayText` passes" fails at this input. -/
theorem c3_counterexample_userId :
    (extractFromHtmlTemplate c1Opts "x.html".data (.ok c3ImgDoc)
        initialState).st.extractedTexts.map Prod.snd = ["userId".data] ∧
    isDisplayText "userId".data none = false ∧
    attrValueHasBindingMarks "userId".data = false := by
  decide

/-- C3 (amended): in the attribute pass an attribute value from the fixed
list title/alt/placeholder/aria-label is extracted, verbatim and under its
own key, if and only if it is nonempty, not `isExcluded`, and contains none
of `{{`, `}}`, `[`, `(` — the classifier `isDisplayText` is not consulted.
Formally, the texts recorded by the pass are exactly the prior entries
followed by the eligible attribute values (`attrCandidateValues`) in visit
order. -/
theorem c3_attr_extraction_amended (opts : Options) (elems : List ElemInfo)
    (st : SessionState) (h : FreshKeys st) :
    (attrPass (attrStepJs opts) elems st).1.extractedTexts.map Prod.snd
      = st.extractedTexts.map Prod.snd ++ attrCandidateValues elems :=
  attrPass_spec opts elems st h

/-- C3 amended, witnessed on `<img alt="userId">` from a fresh session. -/
theorem c3_attr_extraction_amended_witness :
    (attrPass (attrStepJs c1Opts) (docElems c3ImgDoc)
        initialState).1.extractedTexts.map Prod.snd
      = initialState.extractedTexts.map Prod.snd ++
          attrCandidateValues (docElems c3ImgDoc) :=
  c3_attr_extraction_amended c1Opts (docElems c3ImgDoc) initialState
    (by decide)

/-- C4 counterexample: with `replace` set, a template from which nothing is
extracted (`<p>123</p>`; `123` is `isExcluded`) is still written back — the
write of extractor.js 231 is guarded only by `options.replace`, not by any
substitution having occurred — refuting "written back only when at least
one substitution occurred". -/
theorem c4_counterexample_write_without_extraction :
    (extractFromHtmlTemplate { c1Opts with replace := true } "x.html".data
        (.ok c4PlainDoc) initialState).st.extractedTexts = [] ∧
    (extractFromHtmlTemplate { c1Opts with replace := true } "x.html".data
        (.ok c4PlainDoc) initialState).writes.length = 1 := by
  decide

/-- C4 (amended): when the replace option is set, `extractFromHtmlTemplate`
writes the processed markup file back unconditionally — whether or not any
substitution occurred — and when it is clear the file is never written. -/
theorem c4_write_unconditional_amended (opts : Options) (f : List Char)
    (doc : HForest) (st : SessionState) :
    (∃ content,
      (extractFromHtmlTemplate { opts with replace := true } f (.ok doc)
          st).writes = [(f, content)]) ∧
    (extractFromHtmlTemplate { opts with replace := false } f (.ok doc)
        st).writes = [] := by
  constructor
  · exact ⟨_, rfl⟩
  · rfl

/-- C5: a run with `replace=false` never writes a processed source file —
the only write either session pipeline performs is the output artifact
(source-file contents are therefore byte-identical across the run).  Stated
for both the extractor.js pipeline (`extractTextsJs`) and the part_006
pipeline (`extractTextsP6`). -/
theorem c5_dry_run_writes_only_artifact (opts : Options)
    (files : List (List Char × Except (List Char) HForest))
    (dirPath : List Char)
    (htmlFiles : List (List Char × Except (List Char) HForest))
    (tsFiles : List (List Char × Except (List Char) (List Char)))
    (svc : Bool) (outputPath now : List Char)
    (h : opts.replace = false) :
    (extractTextsJs opts files outputPath now).2.1
      = [FsWrite.artifactOut outputPath
          (extractTextsJs opts files outputPath now).1] ∧
    (extractTextsP6 opts dirPath htmlFiles tsFiles svc outputPath now).2.1
      = [FsWrite.artifactOut outputPath
          (extractTextsP6 opts dirPath htmlFiles tsFiles svc outputPath now).1] := by
  constructor
  · simp [extractTextsJs, extractFromDirectory_writes_nil opts h]
  · simp [extractTextsP6, extractFromDirectoryP6_writes_nil opts h]

/-- C5, witnessed on the end-to-end scenario files with `replace=false`. -/
theorem c5_dry_run_witness :
    c1Opts.replace = false ∧
    (extractTextsJs c1Opts [("app.component.html".data, .ok c1HtmlDoc)]
        "out.json".data "t".data).2.1
      = [FsWrite.artifactOut "out.json".data
          (extractTextsJs c1Opts [("app.component.html".data, .ok c1HtmlDoc)]
            "out.json".data "t".data).1] :=
  ⟨rfl,
   (c5_dry_run_writes_only_artifact c1Opts
      [("app.component.html".data, .ok c1HtmlDoc)] "src".data [] [] true
      "out.json".data "t".data rfl).1⟩

/-- C6 counterexample: `Hello {{name}} there` contains a double-brace
interpolation marker, yet `isDisplayText` accepts it — the `{{...}}`
rejection pattern is anchored to the whole string, so the claimed "returns
false when the string contains `{{...}}` anywhere" fails here. -/
theorem c6_counterexample_inner_interpolation :
    ("Hello \x7b\x7bname\x7d\x7d there".data
        = "Hello ".data ++
            ('\x7b' :: '\x7b' :: "name".data ++ ['\x7d', '\x7d']) ++
            " there".data) ∧
    isDisplayText "Hello \x7b\x7bname\x7d\x7d there".data none = true := by
  decide

/-- C6 (amended): `isDisplayText` returns false whenever the trimmed
candidate is an already-applied-translation-key shape, or contains `${`
together with `}` (these screens precede everything, any context included);
without a context it additionally returns false when the entire trimmed
string is a `{{...}}` interpolation.  A `{{...}}` strictly inside a longer
string does not by itself cause rejection. -/
theorem c6_rejections_amended (s : List Char) (ctx : Option JsContext) :
    (translationKeyLike (jsTrim s) = true → isDisplayText s ctx = false) ∧
    (hasDollarBraceParts (jsTrim s) = true → isDisplayText s ctx = false) ∧
    (patWholeInterpolation (jsTrim s) = true →
      isDisplayText s none = false) := by
  refine ⟨?_, ?_, ?_⟩
  · intro h
    simp [isDisplayText, h]
  · intro h
    cases ctx with
    | none => simp [isDisplayText, h]
    | some c => simp [isDisplayText, h]
  · intro h
    have hAny : codePatternsAny (jsTrim s) = true := by
      simp [codePatternsAny, h]
    simp [isDisplayText, displayTextTail, hAny]

/-- C6 amended, witnessed: a key-shaped string, a `${...}`-bearing string
and a whole-string interpolation are each rejected. -/
theorem c6_rejections_amended_witness :
    isDisplayText "app.save.label".data none = false ∧
    isDisplayText "Total: $\x7bcount\x7d items".data none = false ∧
    isDisplayText "\x7b\x7buser.name\x7d\x7d".data none = false :=
  ⟨(c6_rejections_amended "app.save.label".data none).1 (by decide),
   (c6_rejections_amended "Total: $\x7bcount\x7d items".data none).2.1
     (by decide),
   (c6_rejections_amended "\x7b\x7buser.name\x7d\x7d".data none).2.2
     (by decide)⟩

/-- C7 counterexample: under a thrown-error context (import/require,
decorator and console flags all clear) `isDisplayText` and
`isUserFacingErrorMessage` disagree on `Please pay ${amount} today`: the
interpolation screen runs before the throw branch, so the claimed equality
fails at this input. -/
theorem c7_counterexample_screen_precedes_throw :
    isDisplayText "Please pay $\x7bamount\x7d today".data
        (some { isThrow := true }) = false ∧
    isUserFacingErrorMessage
        (jsTrim "Please pay $\x7bamount\x7d today".data) = true := by
  decide

/-- C7 (amended): when a supplied context marks a thrown-error argument and
its import/require, decorator (plain and component) and console flags are
clear, `isDisplayText` equals `isUserFacingErrorMessage` of the trimmed
candidate provided none of the early screens (translation-key shape,
whole-string `${...}`, i18n-asset path, `${`-with-`}` parts) fires; and
`isUserFacingErrorMessage` accepts exactly the texts matching none of the
technical shapes — undefined/null/NaN/TypeError/ReferenceError references,
`failed to`/`cannot`/`unable to...()` phrasings, ALL_CAPS codes, dotted or
call-like member references — whose length exceeds 10 and which contain two
lowercase letters with no line break between them. -/
theorem c7_throw_context_amended (s : List Char) (ctx : JsContext)
    (hthrow : ctx.isThrow = true) (h1 : ctx.isImport = false)
    (h2 : ctx.isRequire = false) (h3 : ctx.isDecorator = false)
    (h4 : ctx.isComponentDecorator = false) (h5 : ctx.isConsole = false)
    (hk : translationKeyLike (jsTrim s) = false)
    (hd : patWholeDollarBrace (jsTrim s) = false)
    (ha : assetsI18nJson (jsTrim s) = false)
    (hp : hasDollarBraceParts (jsTrim s) = false) :
    isDisplayText s (some ctx) = isUserFacingErrorMessage (jsTrim s) ∧
    (∀ t : List Char,
      isUserFacingErrorMessage t =
        (!(containsSub "undefined".data t || containsSub "null".data t ||
           containsSub "NaN".data t || containsSub "TypeError".data t ||
           containsSub "ReferenceError".data t ||
           containsSub "failed to".data t || containsSub "cannot".data t ||
           hasUnableToCall t || allCapsConst t ||
           hasWordDotWord t || hasWordParens t) &&
         decide (t.length > 10) &&
         isUserFacingErrorMessage.twoLowerSameLine t)) := by
  constructor
  · simp [isDisplayText, hk, hd, ha, hp, hthrow, h1, h2, h3, h4, h5]
  · intro t
    rfl

/-- C7 amended, witnessed at a concrete throw-context message. -/
theorem c7_throw_context_amended_witness :
    isDisplayText "We could not reach the server".data
        (some { isThrow := true })
      = isUserFacingErrorMessage
          (jsTrim "We could not reach the server".data) :=
  (c7_throw_context_amended "We could not reach the server".data
    { isThrow := true } rfl rfl rfl rfl rfl rfl (by decide) (by decide)
    (by decide) (by decide)).1

/-- C8: `isDisplayText`, called without a context, rejects each of
`https://api.example.com`, `userId`, `#ffffff`, `GET` and `1.2.3`, and
accepts `Welcome to our application` and `Click here to continue`. -/
theorem c8_classifier_fixed_points :
    isDisplayText "https://api.example.com".data none = false ∧
    isDisplayText "userId".data none = false ∧
    isDisplayText "#ffffff".data none = false ∧
    isDisplayText "GET".data none = false ∧
    isDisplayText "1.2.3".data none = false ∧
    isDisplayText "Welcome to our application".data none = true ∧
    isDisplayText "Click here to continue".data none = true := by
  decide

/-- C9: a failing read of a markup file is caught inside
`extractFromHtmlTemplate`: the call returns normally with the extraction
map and key counter untouched and no write, emitting one warning whose text
contains the file path and carries the underlying message; the per-file
directory loop then continues with the remaining files from that state. -/
theorem c9_per_file_error_recovery (opts : Options) (file msg : List Char)
    (rest : List (List Char × Except (List Char) HForest))
    (st : SessionState) :
    (extractFromHtmlTemplate opts file (.error msg) st).st.extractedTexts
        = st.extractedTexts ∧
    (extractFromHtmlTemplate opts file (.error msg) st).st.keyCounter
        = st.keyCounter ∧
    (extractFromHtmlTemplate opts file (.error msg) st).writes = [] ∧
    (extractFromHtmlTemplate opts file (.error msg) st).warns
        = [(htmlWarnHead file, msg)] ∧
    containsSub file (htmlWarnHead file) = true ∧
    extractFromDirectory opts ((file, .error msg) :: rest) st
        = { st := (extractFromDirectory opts rest
                (extractFromHtmlTemplate opts file (.error msg) st).st).st,
            writes := (extractFromDirectory opts rest
                (extractFromHtmlTemplate opts file (.error msg) st).st).writes,
            warns := (htmlWarnHead file, msg) ::
              (extractFromDirectory opts rest
                (extractFromHtmlTemplate opts file (.error msg) st).st).warns } := by
  refine ⟨rfl, rfl, rfl, rfl, ?_, ?_⟩
  · exact containsSub_sandwich
      "Warning: Could not process HTML template ".data file [':']
  · rfl

/-- C10: any string whose trimmed form begins with two dot-separated digit
runs (a prefix matching `\d+.\d+`) — for example
`2.5 million users trust us` — is rejected by the contextless classifier:
the version-number pattern `/^\d+\.\d+(\.\d+)?/` is anchored only at the
start of the string, so the rejection fires on whole sentences that merely
begin with a decimal number. -/
theorem c10_version_anchor_rejects (s : List Char)
    (h : patVersionNumber (jsTrim s) = true) :
    isDisplayText s none = false := by
  have hAny : codePatternsAny (jsTrim s) = true := by
    simp [codePatternsAny, h]
  simp [isDisplayText, displayTextTail, hAny]

/-- C10, witnessed on `2.5 million users trust us`. -/
theorem c10_version_anchor_rejects_witness :
    patVersionNumber (jsTrim "2.5 million users trust us".data) = true ∧
    isDisplayText "2.5 million users trust us".data none = false :=
  ⟨by decide, c10_version_anchor_rejects _ (by decide)⟩

end AngularTextExtractor
